import Mathlib

/-!
Shallow embedding of the wallpaper-switcher core (src/lib.rs, src/config.rs,
src/main.rs, src/ipc.rs).  Rust BTreeMaps are modelled as sorted association
lists, file-system and process effects as explicit environment parameters and
effect traces, and the thread-local RNG as a stream of draws (`List Nat`): one
value is consumed per random choice, and each draw selects an index into the
current candidate collection (this determinizes `IteratorRandom::choose` /
`SliceRandom::choose` while preserving exactly the set of possible outcomes).
Hash fingerprints (`DefaultHasher` over the hashed fields) are modelled as the
hashed content itself, i.e. collision-freely.  Logging macros are modelled by
returning the list of `error!`-level events the claims refer to; `debug!` and
`info!` calls are not observable here.  anyhow error contexts are elided: an
error value carries its root message.
-/

namespace Wallpaper

/-- Time of day, mirroring chrono `NaiveTime`: seconds since midnight plus a
sub-second part in nanoseconds (the range 1e9..2e9 encodes leap seconds).
Ordering is lexicographic on (secs, frac), as derived for chrono's struct. -/
structure Time where
  secs : Nat
  frac : Nat
  deriving DecidableEq

/-- Boolean comparison mirroring chrono `NaiveTime` `Ord` (derived on
(secs, frac)). -/
def Time.leb (a b : Time) : Bool :=
  a.secs < b.secs || (a.secs == b.secs && a.frac ≤ b.frac)

/-- `NaiveTime::MIN`: midnight. -/
def Time.MIN : Time := ⟨0, 0⟩

/-- `ValidTime::MAX` from config.rs: `from_hms_nano(23, 59, 59, 1_999_999_999)`. -/
def Time.MAX : Time := ⟨86399, 1999999999⟩

/-- `ValidTime` from config.rs: a closed time-of-day interval.  The Rust field
`end` is called `stop` here (`end` is a Lean keyword). -/
structure ValidTime where
  start : Time
  stop : Time
  deriving DecidableEq

/-- `ValidTime::matches`: `(self.start..=self.end).contains(time)`. -/
def ValidTime.matches (vt : ValidTime) (t : Time) : Bool :=
  vt.start.leb t && t.leb vt.stop

/-- `ValidTime::ALL`. -/
def ValidTime.ALL : ValidTime := ⟨Time.MIN, Time.MAX⟩

/-- `Monitors` from config.rs. -/
inductive Monitors
  | All
  | Some (list : List String)
  deriving DecidableEq

/-- `Monitors::includes`. -/
def Monitors.includes (m : Monitors) (monitor : String) : Bool :=
  match m with
  | .All => true
  | .Some list => list.contains monitor

/-- Lexicographic comparison of character lists by code point (for valid
UTF-8 this coincides with Rust's byte-wise `String` ordering). -/
def charsLt : List Char → List Char → Bool
  | [], [] => false
  | [], _ :: _ => true
  | _ :: _, [] => false
  | a :: as, b :: bs =>
    if a.toNat < b.toNat then true
    else if b.toNat < a.toNat then false
    else charsLt as bs

/-- Rust `String` ordering (`Ord` as used by `BTreeMap`). -/
def strLt (a b : String) : Bool := charsLt a.data b.data

/-- BTreeMap lookup on a sorted association list (`BTreeMap::get`). -/
def bget {α : Type} (l : List (String × α)) (k : String) : Option α :=
  (l.find? (fun p => p.1 == k)).map (fun p => p.2)

/-- BTreeMap insert on a sorted association list (`BTreeMap::insert`):
replaces the value at an existing key, otherwise inserts in key order. -/
def binsert {α : Type} (k : String) (v : α) : List (String × α) → List (String × α)
  | [] => [(k, v)]
  | (k0, v0) :: rest =>
    if strLt k k0 then (k, v) :: (k0, v0) :: rest
    else if k == k0 then (k, v) :: rest
    else (k0, v0) :: binsert k v rest

/-- `Config` from config.rs.  Durations are nanosecond counts (the value of
`humantime::Duration::as_nanos`), paths are strings. -/
structure Config where
  check_interval : Nat
  update_interval : Nat
  transitions : List String
  images : List (String × List ValidTime)
  image_dir : String
  fps : Nat
  monitors : Monitors
  deriving DecidableEq

/-- `CACHE_VERSION` from config.rs. -/
def CACHE_VERSION : Nat := 0

/-- `Cache` from config.rs.  `last_update` is a nanosecond timestamp
(the value behind `humantime::Timestamp`). -/
structure Cache where
  version : Nat
  last_update : Nat
  last_transitions : List (String × String)
  last_images : List (String × String)
  deriving DecidableEq

/-- `Cache::update`: set `last_update` to the current time and rewrite the
per-monitor image and transition entries. -/
def Cache.update (c : Cache) (monitor image transition : String) (nowTs : Nat) : Cache :=
  { c with
    last_update := nowTs
    last_images := binsert monitor image c.last_images
    last_transitions := binsert monitor transition c.last_transitions }

/-- Structural fingerprint of a cache (`State::hash_cache` hashes
`last_transitions` and `last_images`, skipping `version` and `last_update`);
modelled as the hashed content itself. -/
def hash_cache (c : Cache) : List (String × String) × List (String × String) :=
  (c.last_transitions, c.last_images)

/-- Structural fingerprint of a config (`State::hash_config` hashes the whole
record); modelled as the hashed content itself. -/
def hash_config (c : Config) : Config := c

/-- `State` from config.rs (the RNG and the project directories live outside
the embedding: the RNG is threaded explicitly, disk contents are passed in). -/
structure State where
  cache : Cache
  config : Config
  last_loaded_cache_hash : List (String × String) × List (String × String)
  last_loaded_config_hash : Config
  deriving DecidableEq

/-- Observable `error!`-level log events referred to by the claims. -/
inductive LogE
  | versionMismatch (expected got : Nat)
  | cantReload (e : String)
  | cantSwitch (e : String)
  | cantSelect (e : String)
  deriving DecidableEq

/-- Merge a freshly loaded cache into the in-memory cache: copy each
`(monitor, value)` pair only when the configured monitor selector includes
the monitor, then overwrite `last_update` unconditionally (the two `for`
loops plus the final assignment shared by `reload` and `force_reload`). -/
def mergeCacheInto (sel : Monitors) (mem : Cache) (loaded : Cache) : Cache :=
  let imgs := loaded.last_images.foldl
    (fun acc kv => if sel.includes kv.1 then binsert kv.1 kv.2 acc else acc)
    mem.last_images
  let trans := loaded.last_transitions.foldl
    (fun acc kv => if sel.includes kv.1 then binsert kv.1 kv.2 acc else acc)
    mem.last_transitions
  { mem with
    last_images := imgs
    last_transitions := trans
    last_update := loaded.last_update }

/-- `State::force_reload`.  The disk reads are abstracted: `loadedCache` /
`loadedConfig` are the freshly parsed file contents (`none` = file absent).
Returns the new state and the `error!` events emitted. -/
def State.force_reload (s : State) (loadedCache : Option Cache)
    (loadedConfig : Option Config) : State × List LogE :=
  let step :=
    match loadedCache with
    | none => (s, ([] : List LogE))
    | some cache =>
      if cache.version ≠ CACHE_VERSION then
        (s, [LogE.versionMismatch CACHE_VERSION cache.version])
      else
        ({ s with
            last_loaded_cache_hash := hash_cache cache
            cache := mergeCacheInto s.config.monitors s.cache cache }, [])
  let s := step.1
  let logs := step.2
  match loadedConfig with
  | none => (s, logs)
  | some config =>
    ({ s with
        last_loaded_config_hash := hash_config config
        config := config }, logs)

/-- `State::reload` (non-forced reconciliation).  Mirrors the source exactly,
including the early `return Ok(())` taken when the freshly loaded cache's
fingerprint equals the previously recorded one, which skips the config part
of the same call. -/
def State.reload (s : State) (loadedCache : Option Cache)
    (loadedConfig : Option Config) : State × List LogE :=
  let configPart := fun (s : State) (logs : List LogE) =>
    match loadedConfig with
    | none => (s, logs)
    | some config =>
      if hash_config config = s.last_loaded_config_hash then (s, logs)
      else
        ({ s with
            last_loaded_config_hash := hash_config config
            config := config }, logs)
  match loadedCache with
  | none => configPart s []
  | some cache =>
    if hash_cache cache = s.last_loaded_cache_hash then
      (s, [])
    else
      let s := { s with last_loaded_cache_hash := hash_cache cache }
      if cache.version ≠ CACHE_VERSION then
        configPart s [LogE.versionMismatch CACHE_VERSION cache.version]
      else
        configPart { s with cache := mergeCacheInto s.config.monitors s.cache cache } []

/-- Environment of one selection pass: the answers of `swww query`
(`get_monitors`), the file system (`PathBuf::is_file`), the wall-clock
time of day (`Local::now().time()`), and the wall-clock timestamp
(`SystemTime::now`) used by `Cache::update`. -/
structure Env where
  connected : List String
  fileExists : String → Bool
  now : Time
  nowTs : Nat

/-- `PathBuf::join` of `image_dir` with a relative image identifier: an
absolute path replaces the base, otherwise a separator is pushed in between
unless one is already present. -/
def joinPath (dir p : String) : String :=
  if p.data.head? = some '/' then p
  else if dir = "" then p
  else if dir.data.getLast? = some '/' then dir ++ p
  else dir ++ "/" ++ p

/-- Body of the `get_image` closure in `update_wallpapers` (lib.rs): draw a
uniformly random candidate, remove it from the set, retry while the drawn
file does not exist, give up when the set is exhausted.  The fuel argument is
the initial set size; each iteration removes exactly one candidate, so the
fuel never runs out. -/
def get_image_go (fe : String → Bool) : Nat → List String → List Nat →
    Option String × List Nat
  | _, [], rng => (none, rng)
  | 0, _ :: _, rng => (none, rng)
  | fuel + 1, img0 :: rest0, rng =>
    let imgs := img0 :: rest0
    let i := rng.headD 0 % imgs.length
    let img := imgs.getD i ("")
    if fe img then (some img, rng.tail)
    else get_image_go fe fuel (imgs.eraseIdx i) rng.tail

/-- The `get_image` closure (lib.rs lines 53-66). -/
def get_image (fe : String → Bool) (imgs : List String) (rng : List Nat) :
    Option String × List Nat :=
  get_image_go fe imgs.length imgs rng

/-- The `valid_images` closure: configured images one of whose validity
windows matches the current time of day, resolved against `image_dir`. -/
def validImages (cfg : Config) (now : Time) : List String :=
  (cfg.images.filter (fun pt => pt.2.any (fun t => t.matches now))).map
    (fun pt => joinPath cfg.image_dir pt.1)

/-- The hard-coded tier-4 fallback path (lib.rs line 140). -/
def DEFAULT_IMAGE : String :=
  "/usr/share/backgrounds/sway/Sway_Wallpaper_Blue_1920x1080.png"

/-- Candidate set of each selection tier, as built in `update_wallpapers`:
tier 1 = matching images not shown before, tier 2 = matching images, tier 3 =
all configured images, tier 4 = the hard-coded fallback.  Tier 0 is unused. -/
def tierCandidates (cfg : Config) (exclusion : List String) (now : Time) :
    Nat → List String
  | 1 => (validImages cfg now).filter (fun p => !exclusion.contains p)
  | 2 => validImages cfg now
  | 3 => cfg.images.map (fun pt => joinPath cfg.image_dir pt.1)
  | 4 => [DEFAULT_IMAGE]
  | _ => []

/-- The four-tier `or_else` chain of `update_wallpapers` (lib.rs lines
114-146), additionally recording which tier produced the image (the tier
number is a ghost observation of which closure in the chain returned
`Some`). -/
def selectImageT (cfg : Config) (exclusion : List String) (fe : String → Bool)
    (now : Time) (rng : List Nat) : Option (Nat × String) × List Nat :=
  match get_image fe (tierCandidates cfg exclusion now 1) rng with
  | (some img, rng) => (some (1, img), rng)
  | (none, rng) =>
    match get_image fe (tierCandidates cfg exclusion now 2) rng with
    | (some img, rng) => (some (2, img), rng)
    | (none, rng) =>
      match get_image fe (tierCandidates cfg exclusion now 3) rng with
      | (some img, rng) => (some (3, img), rng)
      | (none, rng) =>
        if fe DEFAULT_IMAGE then (some (4, DEFAULT_IMAGE), rng) else (none, rng)

/-- `transitions.choose(rng)` with the `"simple"` default (lib.rs lines
150-155); `SliceRandom::choose` consumes no randomness on an empty slice. -/
def chooseTransition (cfg : Config) (rng : List Nat) : String × List Nat :=
  match cfg.transitions with
  | [] => (("simple"), rng)
  | t0 :: rest =>
    let ts := t0 :: rest
    (ts.getD (rng.headD 0 % ts.length) (""), rng.tail)

/-- External side effects of a pass: one `swww img` invocation per actually
changed monitor, one `state.save()` per processed monitor. -/
inductive Effect
  | presenter (monitor image transition : String) (fps : Nat)
  | save (cache : Cache)
  deriving DecidableEq

/-- Ghost record of one monitor's assignment in a pass. -/
structure Pick where
  monitor : String
  tier : Nat
  image : String
  transition : String
  deriving DecidableEq

/-- The body of the `for monitor in monitors` loop of `update_wallpapers`
(lib.rs lines 98-189) for a single monitor: read the monitor's previously
cached image, run the tiered selection, pick a transition, invoke the
presenter only when the image changed, rewrite the cache entry and save. -/
def processMonitor (cfg : Config) (exclusion : List String) (env : Env)
    (cache : Cache) (rng : List Nat) (monitor : String) :
    Except String (Cache × List Nat × List Effect × Pick) :=
  let last_image := bget cache.last_images monitor
  match selectImageT cfg exclusion env.fileExists env.now rng with
  | (none, _) => .error ("no valid image found")
  | (some (tier, image), rng) =>
    let tr := chooseTransition cfg rng
    let transition := tr.1
    let rng := tr.2
    let fx := if some image ≠ last_image
      then [Effect.presenter monitor image transition cfg.fps] else []
    let cache := cache.update monitor image transition env.nowTs
    .ok (cache, rng, fx ++ [Effect.save cache], ⟨monitor, tier, image, transition⟩)

/-- Result of a pass: final cache, remaining randomness, effect trace, ghost
picks, and the error that aborted the pass, if any.  The cache keeps the
updates of the monitors processed before an abort, as the Rust loop mutates
`state` in place. -/
structure PassOut where
  cache : Cache
  rng : List Nat
  fx : List Effect
  picks : List Pick
  err : Option String
  deriving DecidableEq

/-- The `for monitor in monitors` loop of `update_wallpapers`: the tier-1
exclusion list is a parameter fixed for the whole pass (the `last_images`
local of the source), while the cache is threaded through the steps. -/
def runPass (cfg : Config) (exclusion : List String) (env : Env) :
    Cache → List Nat → List String → PassOut
  | cache, rng, [] => ⟨cache, rng, [], [], none⟩
  | cache, rng, monitor :: rest =>
    match processMonitor cfg exclusion env cache rng monitor with
    | .error e => ⟨cache, rng, [], [], some e⟩
    | .ok (cache1, rng1, fx1, pick) =>
      let out := runPass cfg exclusion env cache1 rng1 rest
      ⟨out.cache, out.rng, fx1 ++ out.fx, pick :: out.picks, out.err⟩

/-- Target set of a pass (lib.rs lines 67-81): all connected monitors, or the
requested monitors filtered down to the connected ones. -/
def targetsOf (monitors : Monitors) (connected : List String) : List String :=
  match monitors with
  | .All => connected
  | .Some ms => ms.filter (fun m => connected.contains m)

/-- Result of `update_wallpapers`. -/
structure UWOut where
  state : State
  rng : List Nat
  fx : List Effect
  picks : List Pick
  err : Option String
  deriving DecidableEq

/-- `update_wallpapers` (lib.rs lines 52-192).  The "already shown" exclusion
list is computed exactly once, before any monitor is processed, from the
pre-pass cache (line 97). -/
def update_wallpapers (s : State) (monitors : Monitors) (env : Env)
    (rng : List Nat) : UWOut :=
  let connected := env.connected
  let targets := targetsOf monitors connected
  if targets.isEmpty then
    if connected.isEmpty then ⟨s, rng, [], [], some ("no monitors connected")⟩
    else ⟨s, rng, [], [], some ("no valid monitor available")⟩
  else
    let exclusion := s.cache.last_images.map Prod.snd
    let out := runPass s.config exclusion env s.cache rng targets
    ⟨{ s with cache := out.cache }, out.rng, out.fx, out.picks, out.err⟩

/-- `IpcEvent` from ipc.rs. -/
inductive IpcEvent
  | Reload
  | Switch (monitor : Option String)
  | Select (path : String) (keep_old : Bool)
  deriving DecidableEq

/-- Environment of one daemon cycle: the pass environment, the disk contents
seen by the end-of-cycle reload, the wall-clock nanosecond count
(`UNIX_EPOCH.elapsed()`), and the files found by `get_images_rec` under a
selected path. -/
structure DaemonEnv where
  env : Env
  loadedCache : Option Cache
  loadedConfig : Option Config
  currentTimeNs : Nat
  selectFiles : String → List String

/-- `switch` from main.rs: scope the pass to the optionally requested monitor,
else to all monitors. -/
def switchCmd (s : State) (monitor : Option String) (env : Env)
    (rng : List Nat) : UWOut :=
  let sel := match monitor with
    | some m => Monitors.Some [m]
    | none => Monitors.All
  update_wallpapers s sel env rng

/-- `select` from main.rs: tag every discovered file with the full-day
window, replace or extend the image map, then run an all-monitor pass. -/
def selectCmd (s : State) (path : String) (keep_old : Bool) (denv : DaemonEnv)
    (rng : List Nat) : UWOut :=
  let new_images := (denv.selectFiles path).foldl
    (fun acc p => binsert p [ValidTime.ALL] acc) []
  let images1 := if keep_old
    then new_images.foldl (fun acc kv => binsert kv.1 kv.2 acc) s.config.images
    else new_images
  let s1 := { s with config := { s.config with images := images1 } }
  update_wallpapers s1 Monitors.All denv.env rng

/-- Shared error handling of the `Switch` / `Select` handlers: a pass error
is logged (with the handler's tag) and execution continues with the
partially updated state. -/
def logIfErr (tag : String → LogE) (o : UWOut) :
    State × List Nat × List LogE × List Effect :=
  match o.err with
  | some e => (o.state, o.rng, [tag e], o.fx)
  | none => (o.state, o.rng, [], o.fx)

/-- The `handle_msg` closure of `daemon` (main.rs lines 233-251): every
handler logs its error and lets the loop continue. -/
def handleMsg (denv : DaemonEnv) (s : State) (rng : List Nat) :
    IpcEvent → State × List Nat × List LogE × List Effect
  | .Reload =>
    let r := State.force_reload s denv.loadedCache denv.loadedConfig
    (r.1, rng, r.2, [])
  | .Switch monitor =>
    logIfErr LogE.cantSwitch (switchCmd s monitor denv.env rng)
  | .Select path keep_old =>
    logIfErr LogE.cantSelect (selectCmd s path keep_old denv rng)

/-- `u64::MAX`, the bound of the `try_into` converting the sleep duration. -/
def U64MAX : Nat := 18446744073709551615

/-- Outcome of one daemon loop cycle: either the loop continues with the new
state (errors of message handlers merely logged), or the daemon function
returns the error (the `?` operator on the timer-driven pass or on the sleep
conversion). -/
inductive LoopOutcome
  | next (s : State) (logs : List LogE) (fx : List Effect)
  | halted (e : String)
  deriving DecidableEq

/-- Tail of a daemon cycle after the timer-driven pass (main.rs lines
227-269): sleep-duration conversion (fatal on overflow), handling of the
drained message batch (errors logged), then the unconditional non-forced
reload.  `ci` is the check interval read at the start of the cycle. -/
def daemonTail (denv : DaemonEnv) (ci : Nat) (msgs : List IpcEvent)
    (s : State) (rng : List Nat) (fx : List Effect) : LoopOutcome :=
  let toSleep := ci - denv.currentTimeNs % ci
  if U64MAX < toSleep then .halted ("can't sleep that long")
  else
    let acc := msgs.foldl
      (fun acc msg =>
        let r := handleMsg denv acc.1 acc.2.1 msg
        (r.1, r.2.1, acc.2.2.1 ++ r.2.2.1, acc.2.2.2 ++ r.2.2.2))
      (s, rng, ([] : List LogE), fx)
    let r2 := State.reload acc.1 denv.loadedCache denv.loadedConfig
    .next r2.1 (acc.2.2.1 ++ r2.2) acc.2.2.2

/-- One cycle of the `daemon` main loop (main.rs lines 205-270): timer-driven
update pass (fatal on error, via the `?` operator), then the cycle tail.
`msgs` is the batch delivered by `recv_timeout` plus `try_recv` draining; a
timeout is the empty batch. -/
def daemonStep (s : State) (denv : DaemonEnv) (msgs : List IpcEvent)
    (rng : List Nat) : LoopOutcome :=
  let ci := s.config.check_interval
  let ui := s.config.update_interval
  let ct := denv.currentTimeNs
  let lt := s.cache.last_update
  let step1 : Except String (State × List Nat × List Effect) :=
    if lt / ui < ct / ui then
      let o := update_wallpapers s Monitors.All denv.env rng
      match o.err with
      | some e => .error e
      | none => .ok (o.state, o.rng, o.fx)
    else .ok (s, rng, [])
  match step1 with
  | .error e => .halted e
  | .ok sr => daemonTail denv ci msgs sr.1 sr.2.1 sr.2.2

/-- Whether the loop continued into the next cycle. -/
def LoopOutcome.isNext : LoopOutcome → Bool
  | .next _ _ _ => true
  | .halted _ => false

/-- Errors logged during the cycle (none when the loop halted: the daemon
function returned instead of logging). -/
def LoopOutcome.logs : LoopOutcome → List LogE
  | .next _ logs _ => logs
  | .halted _ => []

/-- The fields of `Config` other than the monitor selector. -/
def Config.core (c : Config) :
    Nat × Nat × List String × List (String × List ValidTime) × String × Nat :=
  (c.check_interval, c.update_interval, c.transitions, c.images, c.image_dir, c.fps)

/-- Monitor-selector-independent observation of a loop outcome: the resulting
cache, the non-selector part of the config, the logs, the effects, or the
halting error. -/
def LoopOutcome.obs : LoopOutcome →
    Option (Cache × (Nat × Nat × List String × List (String × List ValidTime) × String × Nat)
      × List LogE × List Effect) × Option String
  | .next s logs fx => (some (s.cache, s.config.core, logs, fx), none)
  | .halted e => (none, some e)

/-- Decimal digit character (code points 48-57). -/
def digitChar (n : Nat) : Char := Char.ofNat (48 + n)

/-- Numeric value of a digit character. -/
def digitVal (c : Char) : Nat := c.toNat - 48

/-- Two-digit zero-padded decimal, as chrono's numeric format items `%H`,
`%M`, `%S` print their values (all values formatted here are below 100). -/
def pad2 (n : Nat) : List Char := [digitChar (n / 10), digitChar (n % 10)]

theorem get_image_go_some {fe : String → Bool} :
    ∀ (fuel : Nat) (imgs : List String) (rng : List Nat) (img : String)
      (rng2 : List Nat),
      get_image_go fe fuel imgs rng = (some img, rng2) →
      img ∈ imgs ∧ fe img = true := by
  intro fuel
  induction fuel with
  | zero =>
    intro imgs rng img rng2 h
    cases imgs with
    | nil => simp [get_image_go] at h
    | cons a as => simp [get_image_go] at h
  | succ n ih =>
    intro imgs rng img rng2 h
    cases imgs with
    | nil => simp [get_image_go] at h
    | cons a as =>
      rw [get_image_go] at h
      have hlt : rng.headD 0 % (a :: as).length < (a :: as).length :=
        Nat.mod_lt _ (by simp)
      have hD : (a :: as).getD (rng.headD 0 % (a :: as).length) ("") =
          (a :: as)[rng.headD 0 % (a :: as).length] := by
        rw [List.getD_eq_getElem?_getD, List.getElem?_eq_getElem hlt]
        rfl
      by_cases hfe : fe ((a :: as).getD (rng.headD 0 % (a :: as).length) ("")) = true
      · rw [if_pos hfe] at h
        injection h with h1 h2
        injection h1 with h1
        subst h1
        rw [hD] at hfe ⊢
        exact ⟨List.getElem_mem hlt, hfe⟩
      · rw [if_neg hfe] at h
        have := ih _ _ _ _ h
        exact ⟨List.eraseIdx_subset _ _ this.1, this.2⟩

theorem get_image_go_none {fe : String → Bool} :
    ∀ (fuel : Nat) (imgs : List String) (rng : List Nat) (rng2 : List Nat),
      imgs.length ≤ fuel →
      get_image_go fe fuel imgs rng = (none, rng2) →
      ∀ x ∈ imgs, fe x = false := by
  intro fuel
  induction fuel with
  | zero =>
    intro imgs rng rng2 hlen _ x hx
    rw [Nat.le_zero, List.length_eq_zero] at hlen
    subst hlen
    simp at hx
  | succ n ih =>
    intro imgs rng rng2 hlen h x hx
    cases imgs with
    | nil => simp at hx
    | cons a as =>
      rw [get_image_go] at h
      have hlt : rng.headD 0 % (a :: as).length < (a :: as).length :=
        Nat.mod_lt _ (by simp)
      by_cases hfe : fe ((a :: as).getD (rng.headD 0 % (a :: as).length) ("")) = true
      · rw [if_pos hfe] at h
        exact absurd h (by simp)
      · rw [if_neg hfe] at h
        have hlen2 : ((a :: as).eraseIdx (rng.headD 0 % (a :: as).length)).length ≤ n := by
          rw [List.length_eraseIdx]
          simp only [hlt, if_true]
          omega
        have hrec := ih _ _ _ hlen2 h
        obtain ⟨j, hj, hx⟩ := List.mem_iff_getElem.mp hx
        by_cases hji : j = rng.headD 0 % (a :: as).length
        · subst hji
          rw [List.getD_eq_getElem?_getD, List.getElem?_eq_getElem hj] at hfe
          simp only [Option.getD_some, Bool.not_eq_true] at hfe
          rw [← hx]
          exact hfe
        · refine hrec x (List.mem_eraseIdx_iff_getElem.mpr ?_)
          exact ⟨j, hj, hji, hx⟩

/-- Characterization of the `get_image` loop: it yields a candidate exactly
when the tier still holds one whose file exists, and any candidate it yields
comes from the tier and exists; exhaustion means every candidate was drawn,
removed and found missing. -/
theorem get_image_none_iff (fe : String → Bool) (imgs : List String)
    (rng : List Nat) :
    (get_image fe imgs rng).1 = none ↔ ∀ x ∈ imgs, fe x = false := by
  constructor
  · intro h x hx
    have hp : get_image fe imgs rng = (none, (get_image fe imgs rng).2) := by
      rw [← h]
    exact get_image_go_none imgs.length imgs rng _ (Nat.le_refl _) hp x hx
  · intro hall
    by_contra hne
    rcases ho : (get_image fe imgs rng).1 with _ | img
    · exact hne ho
    · have hp : get_image fe imgs rng = (some img, (get_image fe imgs rng).2) := by
        rw [← ho]
      have hs := get_image_go_some imgs.length imgs rng img _ hp
      rw [hall img hs.1] at hs
      exact Bool.false_ne_true hs.2

theorem selectImageT_spec (cfg : Config) (excl : List String)
    (fe : String → Bool) (now : Time) (rng rng2 : List Nat) (t : Nat)
    (img : String)
    (h : selectImageT cfg excl fe now rng = (some (t, img), rng2)) :
    img ∈ tierCandidates cfg excl now t ∧ fe img = true ∧
      ∀ t2, t2 < t → ∀ c ∈ tierCandidates cfg excl now t2, fe c = false := by
  rw [selectImageT] at h
  split at h
  next img1 rng1 heq1 =>
    simp only [Prod.mk.injEq, Option.some.injEq] at h
    obtain ⟨⟨rfl, rfl⟩, rfl⟩ := h
    have hm := get_image_go_some _ _ _ _ _ heq1
    refine ⟨hm.1, hm.2, ?_⟩
    intro t2 ht2 c hc
    interval_cases t2
    simp [tierCandidates] at hc
  next rng1 heq1 =>
    have hall1 : ∀ c ∈ tierCandidates cfg excl now 1, fe c = false :=
      (get_image_none_iff fe _ rng).mp (by rw [heq1])
    split at h
    next img2 rng2x heq2 =>
      simp only [Prod.mk.injEq, Option.some.injEq] at h
      obtain ⟨⟨rfl, rfl⟩, rfl⟩ := h
      have hm := get_image_go_some _ _ _ _ _ heq2
      refine ⟨hm.1, hm.2, ?_⟩
      intro t2 ht2 c hc
      interval_cases t2
      · simp [tierCandidates] at hc
      · exact hall1 c hc
    next rng2x heq2 =>
      have hall2 : ∀ c ∈ tierCandidates cfg excl now 2, fe c = false :=
        (get_image_none_iff fe _ rng1).mp (by rw [heq2])
      split at h
      next img3 rng3 heq3 =>
        simp only [Prod.mk.injEq, Option.some.injEq] at h
        obtain ⟨⟨rfl, rfl⟩, rfl⟩ := h
        have hm := get_image_go_some _ _ _ _ _ heq3
        refine ⟨hm.1, hm.2, ?_⟩
        intro t2 ht2 c hc
        interval_cases t2
        · simp [tierCandidates] at hc
        · exact hall1 c hc
        · exact hall2 c hc
      next rng3 heq3 =>
        have hall3 : ∀ c ∈ tierCandidates cfg excl now 3, fe c = false :=
          (get_image_none_iff fe _ rng2x).mp (by rw [heq3])
        by_cases hd : fe DEFAULT_IMAGE = true
        · rw [if_pos hd] at h
          simp only [Prod.mk.injEq, Option.some.injEq] at h
          obtain ⟨⟨rfl, rfl⟩, rfl⟩ := h
          refine ⟨by simp [tierCandidates], hd, ?_⟩
          intro t2 ht2 c hc
          interval_cases t2
          · simp [tierCandidates] at hc
          · exact hall1 c hc
          · exact hall2 c hc
          · exact hall3 c hc
        · rw [if_neg hd] at h
          simp at h

theorem bget_binsert_self {α : Type} (k : String) (v : α) :
    ∀ l : List (String × α), bget (binsert k v l) k = some v := by
  intro l
  induction l with
  | nil => simp [binsert, bget, List.find?]
  | cons kv rest ih =>
    obtain ⟨k0, v0⟩ := kv
    by_cases h1 : strLt k k0 = true
    · simp [binsert, h1, bget, List.find?]
    · by_cases h2 : k = k0
      · subst h2
        simp [binsert, h1, bget, List.find?]
      · have hbeq : (k == k0) = false := by
          simp [h2]
        have hbeq2 : (k0 == k) = false := by
          simp
          exact fun he => h2 he.symm
        rw [binsert, if_neg (by simp [h1]), if_neg (by simp [hbeq])]
        rw [bget, List.find?_cons_of_neg _ (by simp [hbeq2])]
        exact ih

theorem bget_binsert_ne {α : Type} (k k2 : String) (v : α) (hne : k ≠ k2) :
    ∀ l : List (String × α), bget (binsert k v l) k2 = bget l k2 := by
  intro l
  have hbeq : (k == k2) = false := by simp [hne]
  induction l with
  | nil =>
    simp [binsert, bget, List.find?, hbeq]
  | cons kv rest ih =>
    obtain ⟨k0, v0⟩ := kv
    by_cases h1 : strLt k k0 = true
    · rw [binsert, if_pos h1, bget, List.find?_cons_of_neg _ (by simp [hbeq])]
      rfl
    · by_cases h2 : k = k0
      · subst h2
        rw [binsert, if_neg h1, if_pos (by simp)]
        rw [bget, List.find?_cons_of_neg _ (by simp [hbeq]), bget,
          List.find?_cons_of_neg _ (by simp [hbeq])]
      · rw [binsert, if_neg h1, if_neg (by simp [h2])]
        by_cases h3 : k0 = k2
        · subst h3
          rw [bget, List.find?_cons_of_pos _ (by simp), bget,
            List.find?_cons_of_pos _ (by simp)]
        · rw [bget, List.find?_cons_of_neg _ (by simp [h3]), bget,
            List.find?_cons_of_neg _ (by simp [h3])]
          exact ih

theorem bget_binsert_isSome {α : Type} (k k2 : String) (v : α)
    (l : List (String × α)) (h : (bget l k2).isSome = true) :
    (bget (binsert k v l) k2).isSome = true := by
  by_cases he : k = k2
  · subst he
    rw [bget_binsert_self]
    rfl
  · rw [bget_binsert_ne k k2 v he]
    exact h

theorem get_image_singleton (fe : String → Bool) (p : String) (rng : List Nat)
    (h : fe p = true) : get_image fe [p] rng = (some p, rng.tail) := by
  simp [get_image, get_image_go, Nat.mod_one, h]

/-! Claim C6. -/

/-- C6: tier fallback in image selection is strictly ordered: a selected
image always belongs to the tier it was returned from and its file exists,
and whenever the result comes from tier `t`, every candidate of every earlier
tier fails the existence check (the tiers were exhausted by the
draw-remove-retry loop); moreover the within-tier loop `get_image` comes up
empty exactly when every candidate of the tier fails the existence check. -/
theorem C6_tier_fallback (cfg : Config) (excl : List String)
    (fe : String → Bool) (now : Time) (rng rng2 : List Nat) (t : Nat)
    (img : String)
    (h : selectImageT cfg excl fe now rng = (some (t, img), rng2)) :
    (img ∈ tierCandidates cfg excl now t ∧ fe img = true ∧
      ∀ t2, t2 < t → ∀ c ∈ tierCandidates cfg excl now t2, fe c = false) ∧
    (∀ imgs rngx, ((get_image fe imgs rngx).1 = none ↔ ∀ x ∈ imgs, fe x = false)) :=
  ⟨selectImageT_spec cfg excl fe now rng rng2 t img h,
   fun imgs rngx => get_image_none_iff fe imgs rngx⟩

/-- Existence check used by the C6 witness: only `b` exists on disk. -/
def feC6 : String → Bool := fun p => p == ("b")

/-- Config used by the C6 witness: image `a` is valid 01:00-02:00, image `b`
all day. -/
def cfgC6 : Config :=
  ⟨1, 1, [], [(("a"), [⟨⟨3600, 0⟩, ⟨7200, 0⟩⟩]), (("b"), [ValidTime.ALL])],
    (""), 30, Monitors.All⟩

/-- Witness for C6 at a concrete input: at midnight with `b` already shown,
tier 1 is exhausted and the selection falls back to tier 2. -/
theorem C6_witness :
    selectImageT cfgC6 [("b")] feC6 ⟨0, 0⟩ [] = (some (2, ("b")), []) ∧
    (((("b")) ∈ tierCandidates cfgC6 [("b")] ⟨0, 0⟩ 2 ∧ feC6 ("b") = true ∧
        ∀ t2, t2 < 2 → ∀ c ∈ tierCandidates cfgC6 [("b")] ⟨0, 0⟩ t2,
          feC6 c = false) ∧
      (∀ imgs rngx,
        ((get_image feC6 imgs rngx).1 = none ↔ ∀ x ∈ imgs, feC6 x = false))) :=
  ⟨by decide, C6_tier_fallback cfgC6 [("b")] feC6 ⟨0, 0⟩ [] [] 2 ("b") (by decide)⟩

/-! Claim C1 (Scenario E). -/

/-- Config of Scenario E: a single configured image `a`, valid all day. -/
def scenE_cfg : Config :=
  ⟨300, 3600, [], [(("a"), [ValidTime.ALL])], (""), 30, Monitors.All⟩

/-- State of Scenario E: empty cache maps. -/
def scenE_state : State := ⟨⟨0, 0, [], []⟩, scenE_cfg, ⟨[], []⟩, scenE_cfg⟩

/-- Environment of Scenario E: two connected monitors, only image `a` exists
on disk. -/
def scenE_env : Env := ⟨[("M1"), ("M2")], (fun p => p == ("a")), ⟨0, 0⟩, 7⟩

/-- C1 (counterexample): in Scenario E — two monitors, empty `last_images`,
exactly one matching candidate image — the pass assigns the matching image
from tier 1 to BOTH monitors, so it is false that at most one monitor
receives it from tier 1 with the other falling through to tier 2/3/4.  The
tier-1 exclusion list is computed once from the pre-pass cache and is not
updated as monitors are assigned. -/
theorem C1_counterexample :
    scenE_state.cache.last_images = [] ∧
    validImages scenE_state.config scenE_env.now = [("a")] ∧
    ¬ (((update_wallpapers scenE_state Monitors.All scenE_env []).picks.filter
        (fun k => k.tier == 1 && k.image == ("a"))).length ≤ 1) := by
  decide

/-- C1 (amended): for a selection pass over two monitors when the in-memory
cache's `last_images` map is empty and exactly one configured image has a
validity window matching the current time (and its file exists), after the
pass BOTH monitors are assigned that image, each from tier 1; neither
monitor falls through to tier 2/3/4, because the tier-1 exclusion set is
computed once from the pre-pass cache state. -/
theorem C1_both_monitors_tier1 (s : State) (env : Env) (rng : List Nat)
    (p m1 m2 : String)
    (hcache : s.cache.last_images = [])
    (hvalid : validImages s.config env.now = [p])
    (hfe : env.fileExists p = true)
    (hconn : env.connected = [m1, m2]) :
    (update_wallpapers s Monitors.All env rng).picks.map
      (fun k => (k.monitor, k.tier, k.image)) = [(m1, 1, p), (m2, 1, p)] := by
  have htier1 : tierCandidates s.config ([] : List String) env.now 1 = [p] := by
    simp [tierCandidates, hvalid]
  have hsel : ∀ rngx, selectImageT s.config [] env.fileExists env.now rngx =
      (some (1, p), rngx.tail) := by
    intro rngx
    rw [selectImageT, htier1, get_image_singleton _ _ _ hfe]
  have hproc : ∀ cache rngx m, processMonitor s.config [] env cache rngx m =
      .ok (cache.update m p (chooseTransition s.config rngx.tail).1 env.nowTs,
        (chooseTransition s.config rngx.tail).2,
        (if some p ≠ bget cache.last_images m then
          [Effect.presenter m p (chooseTransition s.config rngx.tail).1
            s.config.fps] else []) ++
          [Effect.save (cache.update m p (chooseTransition s.config rngx.tail).1
            env.nowTs)],
        ⟨m, 1, p, (chooseTransition s.config rngx.tail).1⟩) := by
    intro cache rngx m
    rw [processMonitor, hsel]
  simp [update_wallpapers, targetsOf, hconn, hcache, runPass, hproc]

/-- Witness for the amended C1 at Scenario E's concrete input. -/
theorem C1_witness :
    (scenE_state.cache.last_images = [] ∧
      validImages scenE_state.config scenE_env.now = [("a")] ∧
      scenE_env.fileExists ("a") = true ∧
      scenE_env.connected = [("M1"), ("M2")]) ∧
    (update_wallpapers scenE_state Monitors.All scenE_env []).picks.map
      (fun k => (k.monitor, k.tier, k.image)) =
      [(("M1"), 1, ("a")), (("M2"), 1, ("a"))] :=
  ⟨⟨rfl, by decide, by decide, rfl⟩,
   C1_both_monitors_tier1 scenE_state scenE_env [] ("a") ("M1") ("M2") rfl
     (by decide) (by decide) rfl⟩

/-! Claim C2: per-pass tier-1 exclusion semantics. -/

theorem runPass_cache_irrel (cfg : Config) (excl : List String) (env : Env) :
    ∀ (ts : List String) (c1 c2 : Cache) (rngx : List Nat),
      (runPass cfg excl env c1 rngx ts).picks =
        (runPass cfg excl env c2 rngx ts).picks ∧
      (runPass cfg excl env c1 rngx ts).rng =
        (runPass cfg excl env c2 rngx ts).rng ∧
      (runPass cfg excl env c1 rngx ts).err =
        (runPass cfg excl env c2 rngx ts).err := by
  intro ts
  induction ts with
  | nil => intro c1 c2 rngx; exact ⟨rfl, rfl, rfl⟩
  | cons m rest ih =>
    intro c1 c2 rngx
    rcases hsel : selectImageT cfg excl env.fileExists env.now rngx with ⟨o, rngs⟩
    cases o with
    | none =>
      simp only [runPass, processMonitor, hsel]
      exact ⟨trivial, trivial, trivial⟩
    | some ti =>
      obtain ⟨t, img⟩ := ti
      simp only [runPass, processMonitor, hsel]
      exact ⟨by rw [(ih _ _ _).1], by rw [(ih _ _ _).2.1], by rw [(ih _ _ _).2.2]⟩

/-- C2: in a multi-monitor pass, the "already shown" set used for tier-1
exclusion is the list of ALL monitors' last-shown images taken from the
cache as it was before the pass, computed once before any monitor is
processed (first conjunct: `update_wallpapers` runs the whole pass with the
fixed exclusion `s.cache.last_images.map Prod.snd`); images chosen for
earlier monitors update the threaded in-memory cache but never influence the
selection of later monitors (second conjunct: picks, randomness consumption
and error of a pass are independent of the threaded cache). -/
theorem C2_prepass_exclusion (s : State) (ms : Monitors) (env : Env)
    (rng : List Nat) (hne : targetsOf ms env.connected ≠ []) :
    (update_wallpapers s ms env rng =
      ⟨{ s with cache := (runPass s.config (s.cache.last_images.map Prod.snd)
            env s.cache rng (targetsOf ms env.connected)).cache },
        (runPass s.config (s.cache.last_images.map Prod.snd) env s.cache rng
          (targetsOf ms env.connected)).rng,
        (runPass s.config (s.cache.last_images.map Prod.snd) env s.cache rng
          (targetsOf ms env.connected)).fx,
        (runPass s.config (s.cache.last_images.map Prod.snd) env s.cache rng
          (targetsOf ms env.connected)).picks,
        (runPass s.config (s.cache.last_images.map Prod.snd) env s.cache rng
          (targetsOf ms env.connected)).err⟩) ∧
    (∀ (ts : List String) (c1 c2 : Cache) (rngx : List Nat),
      (runPass s.config (s.cache.last_images.map Prod.snd) env c1 rngx ts).picks =
        (runPass s.config (s.cache.last_images.map Prod.snd) env c2 rngx ts).picks) := by
  constructor
  · rw [update_wallpapers]
    rcases ht : targetsOf ms env.connected with _ | ⟨a, rest⟩
    · exact absurd ht hne
    · simp only [List.isEmpty_cons, Bool.false_eq_true, if_false]
  · intro ts c1 c2 rngx
    exact (runPass_cache_irrel s.config _ env ts c1 c2 rngx).1

/-- Witness for C2 at Scenario E's concrete input. -/
theorem C2_witness :
    targetsOf Monitors.All scenE_env.connected ≠ [] ∧
    (update_wallpapers scenE_state Monitors.All scenE_env [] =
      ⟨{ scenE_state with cache := (runPass scenE_state.config
            (scenE_state.cache.last_images.map Prod.snd) scenE_env
            scenE_state.cache [] (targetsOf Monitors.All scenE_env.connected)).cache },
        (runPass scenE_state.config (scenE_state.cache.last_images.map Prod.snd)
          scenE_env scenE_state.cache [] (targetsOf Monitors.All scenE_env.connected)).rng,
        (runPass scenE_state.config (scenE_state.cache.last_images.map Prod.snd)
          scenE_env scenE_state.cache [] (targetsOf Monitors.All scenE_env.connected)).fx,
        (runPass scenE_state.config (scenE_state.cache.last_images.map Prod.snd)
          scenE_env scenE_state.cache [] (targetsOf Monitors.All scenE_env.connected)).picks,
        (runPass scenE_state.config (scenE_state.cache.last_images.map Prod.snd)
          scenE_env scenE_state.cache [] (targetsOf Monitors.All scenE_env.connected)).err⟩) ∧
    (∀ (ts : List String) (c1 c2 : Cache) (rngx : List Nat),
      (runPass scenE_state.config (scenE_state.cache.last_images.map Prod.snd)
          scenE_env c1 rngx ts).picks =
        (runPass scenE_state.config (scenE_state.cache.last_images.map Prod.snd)
          scenE_env c2 rngx ts).picks) :=
  ⟨by decide,
   (C2_prepass_exclusion scenE_state Monitors.All scenE_env [] (by decide)).1,
   (C2_prepass_exclusion scenE_state Monitors.All scenE_env [] (by decide)).2⟩

/-! Claim C7: idempotent no-op pick. -/

/-- C7: when the newly selected image for a monitor equals that monitor's
previously cached image, the step of the pass body invokes no presenter
effect, yet still rewrites the cache entry via `Cache.update` (which also
advances `last_update` to the current time) and still emits the save
effect persisting the cache. -/
theorem C7_noop_still_persists (cfg : Config) (excl : List String) (env : Env)
    (cache : Cache) (rng rngs : List Nat) (m : String) (t : Nat) (img : String)
    (hsel : selectImageT cfg excl env.fileExists env.now rng = (some (t, img), rngs))
    (hlast : bget cache.last_images m = some img) :
    processMonitor cfg excl env cache rng m =
      .ok (cache.update m img (chooseTransition cfg rngs).1 env.nowTs,
        (chooseTransition cfg rngs).2,
        [Effect.save (cache.update m img (chooseTransition cfg rngs).1 env.nowTs)],
        ⟨m, t, img, (chooseTransition cfg rngs).1⟩) ∧
    (cache.update m img (chooseTransition cfg rngs).1 env.nowTs).last_update =
      env.nowTs ∧
    bget (cache.update m img (chooseTransition cfg rngs).1 env.nowTs).last_images
      m = some img ∧
    bget (cache.update m img (chooseTransition cfg rngs).1 env.nowTs).last_transitions
      m = some (chooseTransition cfg rngs).1 := by
  refine ⟨?_, rfl, ?_, ?_⟩
  · rw [processMonitor, hsel]
    simp only [hlast, ne_eq, not_true_eq_false, if_neg, ite_false, List.nil_append,
      not_false_eq_true]
  · rw [Cache.update]
    exact bget_binsert_self m img cache.last_images
  · rw [Cache.update]
    exact bget_binsert_self m (chooseTransition cfg rngs).1 cache.last_transitions

/-- State used by the C7 witness: monitor `M1` already shows image `a`. -/
def c7_cache : Cache := ⟨0, 3, [(("M1"), ("t0"))], [(("M1"), ("a"))]⟩

/-- Witness for C7 at a concrete input: the selection returns the image the
monitor already shows; no presenter effect is emitted, the cache entry is
rewritten and saved. -/
theorem C7_witness :
    selectImageT scenE_cfg [] scenE_env.fileExists scenE_env.now [] =
      (some (1, ("a")), []) ∧
    bget c7_cache.last_images ("M1") = some ("a") ∧
    (processMonitor scenE_cfg [] scenE_env c7_cache [] ("M1") =
      .ok (c7_cache.update ("M1") ("a") (chooseTransition scenE_cfg []).1
          scenE_env.nowTs,
        (chooseTransition scenE_cfg []).2,
        [Effect.save (c7_cache.update ("M1") ("a") (chooseTransition scenE_cfg []).1
          scenE_env.nowTs)],
        ⟨("M1"), 1, ("a"), (chooseTransition scenE_cfg []).1⟩) ∧
      (c7_cache.update ("M1") ("a") (chooseTransition scenE_cfg []).1
        scenE_env.nowTs).last_update = scenE_env.nowTs ∧
      bget (c7_cache.update ("M1") ("a") (chooseTransition scenE_cfg []).1
        scenE_env.nowTs).last_images ("M1") = some ("a") ∧
      bget (c7_cache.update ("M1") ("a") (chooseTransition scenE_cfg []).1
        scenE_env.nowTs).last_transitions ("M1") =
        some (chooseTransition scenE_cfg []).1) :=
  ⟨by decide, by decide,
   C7_noop_still_persists scenE_cfg [] scenE_env c7_cache [] [] ("M1") 1 ("a")
     (by decide) (by decide)⟩

/-! Claim C3: the fingerprint short-circuit in non-forced reconciliation. -/

/-- Changed config used by the C3 failing input (fps differs). -/
def c3_cfg : Config := { scenE_cfg with fps := 60 }

/-- C3 (code bug): at the failing input — a freshly loaded cache whose
fingerprint equals the recorded one together with a freshly loaded config
whose fingerprint differs — non-forced reconciliation returns early from the
cache short-circuit and never applies the new config, while forced
reconciliation (whose merge logic the non-forced path is supposed to mirror
apart from the short-circuit) does apply it.  The spec's per-kind skip is
the evident intent; the early `return Ok(())` in `State::reload` skips the
whole rest of the call. -/
theorem C3_shortcircuit_skips_config :
    hash_cache scenE_state.cache = scenE_state.last_loaded_cache_hash ∧
    hash_config c3_cfg ≠ scenE_state.last_loaded_config_hash ∧
    (State.reload scenE_state (some scenE_state.cache) (some c3_cfg)).1.config =
      scenE_state.config ∧
    scenE_state.config ≠ c3_cfg ∧
    (State.reload scenE_state (some scenE_state.cache) (some c3_cfg)).1 =
      scenE_state ∧
    (State.force_reload scenE_state (some scenE_state.cache) (some c3_cfg)).1.config =
      c3_cfg := by
  decide

/-! Claim C4: the cache version gate. -/

/-- Version-mismatched cache whose maps equal the recorded fingerprint of
`scenE_state` (both empty): the non-forced short-circuit fires. -/
def c4_badCache : Cache := ⟨1, 5, [], []⟩

/-- C4 (counterexample): a loaded cache with `version = 1 ≠ 0` whose
fingerprint equals the recorded one is skipped silently by non-forced
reconciliation: nothing is merged (correct), but no error is reported,
contradicting the claim that the mismatch is always reported. -/
theorem C4_counterexample :
    c4_badCache.version ≠ CACHE_VERSION ∧
    (State.reload scenE_state (some c4_badCache) none).2 = [] ∧
    (State.reload scenE_state (some c4_badCache) none).1 = scenE_state := by
  decide

/-- C4 (amended): a loaded cache whose version differs from the expected
cache version never merges — in both forced and non-forced reconciliation
the in-memory `last_images`, `last_transitions` and `last_update` are left
unchanged — and the mismatch is reported as an error by forced
reconciliation always, and by non-forced reconciliation whenever the loaded
cache's fingerprint differs from the recorded one (when the fingerprints
are equal the non-forced path skips the cache silently, without reporting). -/
theorem C4_version_gate (s : State) (lc : Cache) (lco : Option Config)
    (hv : lc.version ≠ CACHE_VERSION) :
    ((State.reload s (some lc) lco).1.cache.last_images = s.cache.last_images ∧
      (State.reload s (some lc) lco).1.cache.last_transitions =
        s.cache.last_transitions ∧
      (State.reload s (some lc) lco).1.cache.last_update = s.cache.last_update) ∧
    ((State.force_reload s (some lc) lco).1.cache.last_images =
        s.cache.last_images ∧
      (State.force_reload s (some lc) lco).1.cache.last_transitions =
        s.cache.last_transitions ∧
      (State.force_reload s (some lc) lco).1.cache.last_update =
        s.cache.last_update) ∧
    LogE.versionMismatch CACHE_VERSION lc.version ∈
      (State.force_reload s (some lc) lco).2 ∧
    (hash_cache lc ≠ s.last_loaded_cache_hash →
      LogE.versionMismatch CACHE_VERSION lc.version ∈
        (State.reload s (some lc) lco).2) := by
  refine ⟨?_, ?_, ?_, ?_⟩
  · by_cases hh : hash_cache lc = s.last_loaded_cache_hash
    · simp [State.reload, hh]
    · cases lco with
      | none => simp [State.reload, hh, hv]
      | some config =>
        by_cases hc : hash_config config = s.last_loaded_config_hash
        · simp [State.reload, hh, hv, hc]
        · simp [State.reload, hh, hv, hc]
  · cases lco with
    | none => simp [State.force_reload, hv]
    | some config => simp [State.force_reload, hv]
  · cases lco with
    | none => simp [State.force_reload, hv]
    | some config => simp [State.force_reload, hv]
  · intro hh
    cases lco with
    | none => simp [State.reload, hh, hv]
    | some config =>
      by_cases hc : hash_config config = s.last_loaded_config_hash
      · simp [State.reload, hh, hv, hc]
      · simp [State.reload, hh, hv, hc]

/-- Version-mismatched cache with a non-empty map, so that the non-forced
fingerprint check does not short-circuit. -/
def c4_badCache2 : Cache := ⟨1, 5, [], [(("M1"), ("x"))]⟩

/-- Witness for the amended C4 at a concrete input. -/
theorem C4_witness :
    c4_badCache2.version ≠ CACHE_VERSION ∧
    (((State.reload scenE_state (some c4_badCache2) none).1.cache.last_images =
        scenE_state.cache.last_images ∧
      (State.reload scenE_state (some c4_badCache2) none).1.cache.last_transitions =
        scenE_state.cache.last_transitions ∧
      (State.reload scenE_state (some c4_badCache2) none).1.cache.last_update =
        scenE_state.cache.last_update) ∧
    ((State.force_reload scenE_state (some c4_badCache2) none).1.cache.last_images =
        scenE_state.cache.last_images ∧
      (State.force_reload scenE_state (some c4_badCache2) none).1.cache.last_transitions =
        scenE_state.cache.last_transitions ∧
      (State.force_reload scenE_state (some c4_badCache2) none).1.cache.last_update =
        scenE_state.cache.last_update) ∧
    LogE.versionMismatch CACHE_VERSION c4_badCache2.version ∈
      (State.force_reload scenE_state (some c4_badCache2) none).2 ∧
    (hash_cache c4_badCache2 ≠ scenE_state.last_loaded_cache_hash →
      LogE.versionMismatch CACHE_VERSION c4_badCache2.version ∈
        (State.reload scenE_state (some c4_badCache2) none).2)) :=
  ⟨by decide, C4_version_gate scenE_state c4_badCache2 none (by decide)⟩

/-! Claim C5: the monitor-selector merge filter. -/

theorem mergeFold_excluded {α : Type} (sel : Monitors) (m : String)
    (hm : sel.includes m = false) :
    ∀ (loaded : List (String × α)) (acc : List (String × α)),
      bget (loaded.foldl
        (fun acc kv => if sel.includes kv.1 then binsert kv.1 kv.2 acc else acc)
        acc) m = bget acc m := by
  intro loaded
  induction loaded with
  | nil => intro acc; rfl
  | cons kv rest ih =>
    intro acc
    rw [List.foldl_cons]
    by_cases hi : sel.includes kv.1 = true
    · rw [if_pos hi, ih]
      have hne : kv.1 ≠ m := by
        intro he
        rw [he, hm] at hi
        exact Bool.false_ne_true hi
      exact bget_binsert_ne kv.1 m kv.2 hne acc
    · rw [if_neg hi, ih]

theorem mergeFold_preserves {α : Type} (sel : Monitors) :
    ∀ (loaded : List (String × α)) (acc : List (String × α)) (m2 : String),
      (bget acc m2).isSome = true →
      (bget (loaded.foldl
        (fun acc kv => if sel.includes kv.1 then binsert kv.1 kv.2 acc else acc)
        acc) m2).isSome = true := by
  intro loaded
  induction loaded with
  | nil => intro acc m2 h; exact h
  | cons kv rest ih =>
    intro acc m2 h
    rw [List.foldl_cons]
    by_cases hi : sel.includes kv.1 = true
    · rw [if_pos hi]
      exact ih _ _ (bget_binsert_isSome kv.1 m2 kv.2 acc h)
    · rw [if_neg hi]
      exact ih _ _ h

theorem mergeCacheInto_excluded (sel : Monitors) (mem loaded : Cache)
    (m : String) (hm : sel.includes m = false) :
    bget (mergeCacheInto sel mem loaded).last_images m =
      bget mem.last_images m ∧
    bget (mergeCacheInto sel mem loaded).last_transitions m =
      bget mem.last_transitions m :=
  ⟨mergeFold_excluded sel m hm loaded.last_images mem.last_images,
   mergeFold_excluded sel m hm loaded.last_transitions mem.last_transitions⟩

theorem mergeCacheInto_preserves (sel : Monitors) (mem loaded : Cache)
    (m2 : String) :
    ((bget mem.last_images m2).isSome = true →
      (bget (mergeCacheInto sel mem loaded).last_images m2).isSome = true) ∧
    ((bget mem.last_transitions m2).isSome = true →
      (bget (mergeCacheInto sel mem loaded).last_transitions m2).isSome = true) :=
  ⟨fun h => mergeFold_preserves sel loaded.last_images mem.last_images m2 h,
   fun h => mergeFold_preserves sel loaded.last_transitions mem.last_transitions m2 h⟩

/-- The cache produced by non-forced reconciliation is either the unchanged
in-memory cache or the filtered merge of the loaded cache into it. -/
theorem reload_cache_cases (s : State) (lc : Cache) (lco : Option Config) :
    (State.reload s (some lc) lco).1.cache = s.cache ∨
    (State.reload s (some lc) lco).1.cache =
      mergeCacheInto s.config.monitors s.cache lc := by
  by_cases hh : hash_cache lc = s.last_loaded_cache_hash
  · left; simp [State.reload, hh]
  · by_cases hv : lc.version ≠ CACHE_VERSION
    · left
      cases lco with
      | none => simp [State.reload, hh, hv]
      | some config =>
        by_cases hc : hash_config config = s.last_loaded_config_hash
        · simp [State.reload, hh, hv, hc]
        · simp [State.reload, hh, hv, hc]
    · right
      cases lco with
      | none => simp [State.reload, hh, hv]
      | some config =>
        by_cases hc : hash_config config = s.last_loaded_config_hash
        · simp [State.reload, hh, hv, hc]
        · simp [State.reload, hh, hv, hc]

/-- The cache produced by forced reconciliation is either the unchanged
in-memory cache (version mismatch) or the filtered merge. -/
theorem force_reload_cache_cases (s : State) (lc : Cache) (lco : Option Config) :
    (State.force_reload s (some lc) lco).1.cache = s.cache ∨
    (State.force_reload s (some lc) lco).1.cache =
      mergeCacheInto s.config.monitors s.cache lc := by
  by_cases hv : lc.version ≠ CACHE_VERSION
  · left
    cases lco with
    | none => simp [State.force_reload, hv]
    | some config => simp [State.force_reload, hv]
  · right
    cases lco with
    | none => simp [State.force_reload, hv]
    | some config => simp [State.force_reload, hv]

/-- C5: for every cache merge during reconciliation (forced or not) and
every monitor name excluded by the configured monitors selector, no image or
transition entry for that monitor is copied from the freshly loaded cache
(its in-memory lookup is unchanged), and the merge never removes entries:
any monitor with an in-memory entry still has one afterwards. -/
theorem C5_selector_filter (s : State) (lc : Cache) (lco : Option Config)
    (m : String) (hm : s.config.monitors.includes m = false) :
    (bget (State.reload s (some lc) lco).1.cache.last_images m =
        bget s.cache.last_images m ∧
      bget (State.reload s (some lc) lco).1.cache.last_transitions m =
        bget s.cache.last_transitions m ∧
      bget (State.force_reload s (some lc) lco).1.cache.last_images m =
        bget s.cache.last_images m ∧
      bget (State.force_reload s (some lc) lco).1.cache.last_transitions m =
        bget s.cache.last_transitions m) ∧
    (∀ m2, ((bget s.cache.last_images m2).isSome = true →
        (bget (State.reload s (some lc) lco).1.cache.last_images m2).isSome = true) ∧
      ((bget s.cache.last_transitions m2).isSome = true →
        (bget (State.reload s (some lc) lco).1.cache.last_transitions m2).isSome = true) ∧
      ((bget s.cache.last_images m2).isSome = true →
        (bget (State.force_reload s (some lc) lco).1.cache.last_images m2).isSome = true) ∧
      ((bget s.cache.last_transitions m2).isSome = true →
        (bget (State.force_reload s (some lc) lco).1.cache.last_transitions m2).isSome = true)) := by
  have hcase : ∀ c : Cache,
      (c = s.cache ∨ c = mergeCacheInto s.config.monitors s.cache lc) →
      bget c.last_images m = bget s.cache.last_images m ∧
      bget c.last_transitions m = bget s.cache.last_transitions m := by
    rintro c (rfl | rfl)
    · exact ⟨rfl, rfl⟩
    · exact mergeCacheInto_excluded _ _ _ _ hm
  have hpres : ∀ c : Cache,
      (c = s.cache ∨ c = mergeCacheInto s.config.monitors s.cache lc) →
      ∀ m2, ((bget s.cache.last_images m2).isSome = true →
          (bget c.last_images m2).isSome = true) ∧
        ((bget s.cache.last_transitions m2).isSome = true →
          (bget c.last_transitions m2).isSome = true) := by
    rintro c (rfl | rfl) m2
    · exact ⟨id, id⟩
    · exact ⟨(mergeCacheInto_preserves _ _ _ _).1,
        (mergeCacheInto_preserves _ _ _ _).2⟩
  refine ⟨⟨(hcase _ (reload_cache_cases s lc lco)).1,
      (hcase _ (reload_cache_cases s lc lco)).2,
      (hcase _ (force_reload_cache_cases s lc lco)).1,
      (hcase _ (force_reload_cache_cases s lc lco)).2⟩, ?_⟩
  intro m2
  exact ⟨(hpres _ (reload_cache_cases s lc lco) m2).1,
    (hpres _ (reload_cache_cases s lc lco) m2).2,
    (hpres _ (force_reload_cache_cases s lc lco) m2).1,
    (hpres _ (force_reload_cache_cases s lc lco) m2).2⟩

/-- State used by the C5 witness: selector restricted to `DP-1`, existing
entry for the excluded monitor `HDMI-1`. -/
def c5_state : State :=
  { scenE_state with
    config := { scenE_cfg with monitors := Monitors.Some [("DP-1")] }
    cache := ⟨0, 3, [(("HDMI-1"), ("t0"))], [(("HDMI-1"), ("old"))]⟩ }

/-- Loaded cache used by the C5 witness: entries for both monitors. -/
def c5_loaded : Cache :=
  ⟨0, 9, [(("DP-1"), ("t1")), (("HDMI-1"), ("t2"))],
    [(("DP-1"), ("new1")), (("HDMI-1"), ("new2"))]⟩

/-- Witness for C5 at a concrete input. -/
theorem C5_witness :
    c5_state.config.monitors.includes ("HDMI-1") = false ∧
    ((bget (State.reload c5_state (some c5_loaded) none).1.cache.last_images
        ("HDMI-1") = bget c5_state.cache.last_images ("HDMI-1") ∧
      bget (State.reload c5_state (some c5_loaded) none).1.cache.last_transitions
        ("HDMI-1") = bget c5_state.cache.last_transitions ("HDMI-1") ∧
      bget (State.force_reload c5_state (some c5_loaded) none).1.cache.last_images
        ("HDMI-1") = bget c5_state.cache.last_images ("HDMI-1") ∧
      bget (State.force_reload c5_state (some c5_loaded) none).1.cache.last_transitions
        ("HDMI-1") = bget c5_state.cache.last_transitions ("HDMI-1")) ∧
    (∀ m2, ((bget c5_state.cache.last_images m2).isSome = true →
        (bget (State.reload c5_state (some c5_loaded) none).1.cache.last_images
          m2).isSome = true) ∧
      ((bget c5_state.cache.last_transitions m2).isSome = true →
        (bget (State.reload c5_state (some c5_loaded) none).1.cache.last_transitions
          m2).isSome = true) ∧
      ((bget c5_state.cache.last_images m2).isSome = true →
        (bget (State.force_reload c5_state (some c5_loaded) none).1.cache.last_images
          m2).isSome = true) ∧
      ((bget c5_state.cache.last_transitions m2).isSome = true →
        (bget (State.force_reload c5_state (some c5_loaded) none).1.cache.last_transitions
          m2).isSome = true))) :=
  ⟨by decide, C5_selector_filter c5_state c5_loaded none ("HDMI-1") (by decide)⟩

/-! Claim C9: which fatal conditions terminate the daemon loop. -/

/-- Config used by the C9 inputs. -/
def c9_cfg : Config := ⟨100, 100, [], [], (""), 30, Monitors.All⟩

/-- State used by the C9 counterexample: the last update falls in the same
update bucket as the current time, so the timer-driven pass does not run. -/
def c9_state : State := ⟨⟨0, 150, [], []⟩, c9_cfg, ⟨[], []⟩, c9_cfg⟩

/-- Daemon environment used by the C9 counterexample: only `HDMI-1`
connected. -/
def c9_denv : DaemonEnv :=
  ⟨⟨[("HDMI-1")], (fun _ => false), ⟨0, 0⟩, 7⟩, none, none, 160, (fun _ => [])⟩

/-- C9 (counterexample): the "no valid monitor available" fatal condition
raised by an IPC-triggered `Switch{monitor: DP-1}` (DP-1 not connected) does
NOT terminate the daemon loop: the cycle ends in `next` and the error is
merely logged — the daemon logs the error and continues, contradicting the
claim that the loop terminates regardless of whether the operation was
triggered by the timer or by an IPC event. -/
theorem C9_counterexample :
    (daemonStep c9_state c9_denv [IpcEvent.Switch (some ("DP-1"))] []).isNext =
      true ∧
    (daemonStep c9_state c9_denv [IpcEvent.Switch (some ("DP-1"))] []).logs =
      [LogE.cantSwitch ("no valid monitor available")] := by
  decide

/-- C9 (amended): fatal conditions of a selection pass (such as "no valid
image" or "no valid monitor") terminate the daemon loop only when the pass
runs on the timer path: if the timer-driven update is due and the pass
reports an error, the cycle halts with that error (first conjunct); when the
timer-driven pass is not due and the sleep conversion fits, the cycle always
continues into `next`, regardless of the message batch — errors raised while
handling IPC events (Reload/Switch/Select) are logged and the loop
continues (second conjunct). -/
theorem C9_fatal_scope (s : State) (denv : DaemonEnv) (msgs : List IpcEvent)
    (rng : List Nat) (e : String) :
    (s.cache.last_update / s.config.update_interval <
        denv.currentTimeNs / s.config.update_interval →
      (update_wallpapers s Monitors.All denv.env rng).err = some e →
      daemonStep s denv msgs rng = .halted e) ∧
    (¬ (s.cache.last_update / s.config.update_interval <
        denv.currentTimeNs / s.config.update_interval) →
      s.config.check_interval - denv.currentTimeNs % s.config.check_interval ≤
        U64MAX →
      (daemonStep s denv msgs rng).isNext = true) := by
  constructor
  · intro hdue herr
    simp only [daemonStep, if_pos hdue, herr]
  · intro hnot hsleep
    simp only [daemonStep, if_neg hnot]
    rw [daemonTail, if_neg (by omega)]
    rfl

/-- Daemon environment used by the C9 witness's halting half: no monitors
connected at all. -/
def c9_denv2 : DaemonEnv :=
  ⟨⟨[], (fun _ => false), ⟨0, 0⟩, 7⟩, none, none, 160, (fun _ => [])⟩

/-- State used by the C9 witness's halting half: the update is overdue. -/
def c9_state2 : State := ⟨⟨0, 50, [], []⟩, c9_cfg, ⟨[], []⟩, c9_cfg⟩

/-- Witness for the amended C9 at concrete inputs: an overdue timer pass
with no monitors halts the loop; a non-due cycle with a failing IPC switch
continues. -/
theorem C9_witness :
    daemonStep c9_state2 c9_denv2 [] [] = .halted ("no monitors connected") ∧
    (daemonStep c9_state c9_denv [IpcEvent.Switch (some ("DP-1"))] []).isNext =
      true :=
  ⟨(C9_fatal_scope c9_state2 c9_denv2 [] [] ("no monitors connected")).1
      (by decide) (by decide),
   (C9_fatal_scope c9_state c9_denv [IpcEvent.Switch (some ("DP-1"))] []
      ("")).2 (by decide) (by decide)⟩

/-! Claim C10: the monitor selector never restricts swap-pass targets. -/

/-- Equality of two states on every field except possibly the configured
monitor selector. -/
def stateRel (s' s : State) : Prop :=
  s'.cache = s.cache ∧ s'.config.images = s.config.images ∧
  s'.config.image_dir = s.config.image_dir ∧
  s'.config.transitions = s.config.transitions ∧
  s'.config.fps = s.config.fps ∧
  s'.config.check_interval = s.config.check_interval ∧
  s'.config.update_interval = s.config.update_interval ∧
  s'.last_loaded_cache_hash = s.last_loaded_cache_hash ∧
  s'.last_loaded_config_hash = s.last_loaded_config_hash

theorem chooseTransition_congr (cfg' cfg : Config)
    (h : cfg'.transitions = cfg.transitions) :
    ∀ rng, chooseTransition cfg' rng = chooseTransition cfg rng := by
  intro rng
  rw [chooseTransition, chooseTransition, h]

theorem selectImageT_congr (cfg' cfg : Config)
    (h1 : cfg'.images = cfg.images) (h2 : cfg'.image_dir = cfg.image_dir)
    (excl : List String) (fe : String → Bool) (now : Time) (rng : List Nat) :
    selectImageT cfg' excl fe now rng = selectImageT cfg excl fe now rng := by
  simp only [selectImageT, tierCandidates, validImages, h1, h2]

theorem processMonitor_congr (cfg' cfg : Config)
    (h1 : cfg'.images = cfg.images) (h2 : cfg'.image_dir = cfg.image_dir)
    (h3 : cfg'.transitions = cfg.transitions) (h4 : cfg'.fps = cfg.fps)
    (excl : List String) (env : Env) (cache : Cache) (rng : List Nat)
    (m : String) :
    processMonitor cfg' excl env cache rng m =
      processMonitor cfg excl env cache rng m := by
  simp only [processMonitor, selectImageT_congr cfg' cfg h1 h2,
    chooseTransition_congr cfg' cfg h3, h4]

theorem runPass_congr (cfg' cfg : Config)
    (h1 : cfg'.images = cfg.images) (h2 : cfg'.image_dir = cfg.image_dir)
    (h3 : cfg'.transitions = cfg.transitions) (h4 : cfg'.fps = cfg.fps)
    (excl : List String) (env : Env) :
    ∀ (ts : List String) (cache : Cache) (rng : List Nat),
      runPass cfg' excl env cache rng ts = runPass cfg excl env cache rng ts := by
  intro ts
  induction ts with
  | nil => intro cache rng; rfl
  | cons m rest ih =>
    intro cache rng
    simp only [runPass, processMonitor_congr cfg' cfg h1 h2 h3 h4, ih]

theorem update_wallpapers_congr (s' s : State)
    (hc : s'.cache = s.cache)
    (h1 : s'.config.images = s.config.images)
    (h2 : s'.config.image_dir = s.config.image_dir)
    (h3 : s'.config.transitions = s.config.transitions)
    (h4 : s'.config.fps = s.config.fps)
    (ms : Monitors) (env : Env) (rng : List Nat) :
    update_wallpapers s' ms env rng =
      { update_wallpapers s ms env rng with
        state := { s' with cache := (update_wallpapers s ms env rng).state.cache } } := by
  rw [update_wallpapers, update_wallpapers]
  rcases ht : targetsOf ms env.connected with _ | ⟨a, rest⟩
  · by_cases hce : env.connected.isEmpty = true
    · simp only [List.isEmpty_nil, if_true, ite_true, if_pos hce]
      rw [← hc]
    · simp only [List.isEmpty_nil, if_true, ite_true, if_neg hce]
      rw [← hc]
  · simp only [List.isEmpty_cons, Bool.false_eq_true, if_false, ite_false]
    rw [runPass_congr s'.config s.config h1 h2 h3 h4, hc]

/-- `update_wallpapers` replaces only the cache inside the state. -/
theorem update_wallpapers_state_fields (s : State) (ms : Monitors) (env : Env)
    (rng : List Nat) :
    (update_wallpapers s ms env rng).state.config = s.config ∧
    (update_wallpapers s ms env rng).state.last_loaded_cache_hash =
      s.last_loaded_cache_hash ∧
    (update_wallpapers s ms env rng).state.last_loaded_config_hash =
      s.last_loaded_config_hash := by
  rw [update_wallpapers]
  rcases ht : targetsOf ms env.connected with _ | ⟨a, rest⟩
  · by_cases hce : env.connected.isEmpty = true
    · simp [hce]
    · simp [hce]
  · simp

theorem uw_rel (s' s : State) (h : stateRel s' s) (ms : Monitors) (env : Env)
    (rng : List Nat) :
    stateRel (update_wallpapers s' ms env rng).state
      (update_wallpapers s ms env rng).state ∧
    (update_wallpapers s' ms env rng).rng = (update_wallpapers s ms env rng).rng ∧
    (update_wallpapers s' ms env rng).fx = (update_wallpapers s ms env rng).fx ∧
    (update_wallpapers s' ms env rng).err = (update_wallpapers s ms env rng).err := by
  obtain ⟨hc, h1, h2, h3, h4, h5, h6, h7, h8⟩ := h
  rw [update_wallpapers_congr s' s hc h1 h2 h3 h4 ms env rng]
  have hf := update_wallpapers_state_fields s ms env rng
  refine ⟨⟨rfl, ?_, ?_, ?_, ?_, ?_, ?_, ?_, ?_⟩, rfl, rfl, rfl⟩
  · rw [hf.1]; exact h1
  · rw [hf.1]; exact h2
  · rw [hf.1]; exact h3
  · rw [hf.1]; exact h4
  · rw [hf.1]; exact h5
  · rw [hf.1]; exact h6
  · rw [hf.2.1]; exact h7
  · rw [hf.2.2]; exact h8

theorem stateRel_cache_update (s' s : State) (h : stateRel s' s) (c : Cache) :
    stateRel { s' with cache := c } { s with cache := c } := by
  obtain ⟨_, h1, h2, h3, h4, h5, h6, h7, h8⟩ := h
  exact ⟨rfl, h1, h2, h3, h4, h5, h6, h7, h8⟩

theorem force_reload_none_rel (s' s : State) (h : stateRel s' s)
    (lco : Option Config) :
    stateRel (State.force_reload s' none lco).1 (State.force_reload s none lco).1 ∧
    (State.force_reload s' none lco).2 = (State.force_reload s none lco).2 := by
  obtain ⟨hc, h1, h2, h3, h4, h5, h6, h7, h8⟩ := h
  cases lco with
  | none => exact ⟨⟨hc, h1, h2, h3, h4, h5, h6, h7, h8⟩, rfl⟩
  | some config =>
    refine ⟨⟨hc, rfl, rfl, rfl, rfl, rfl, rfl, h7, rfl⟩, rfl⟩

theorem reload_none_rel (s' s : State) (h : stateRel s' s)
    (lco : Option Config) :
    stateRel (State.reload s' none lco).1 (State.reload s none lco).1 ∧
    (State.reload s' none lco).2 = (State.reload s none lco).2 := by
  obtain ⟨hc, h1, h2, h3, h4, h5, h6, h7, h8⟩ := h
  cases lco with
  | none => exact ⟨⟨hc, h1, h2, h3, h4, h5, h6, h7, h8⟩, rfl⟩
  | some config =>
    by_cases hcf : hash_config config = s.last_loaded_config_hash
    · have hcf2 : hash_config config = s'.last_loaded_config_hash := by
        rw [h8]; exact hcf
      simp only [State.reload, if_pos hcf, if_pos hcf2]
      exact ⟨⟨hc, h1, h2, h3, h4, h5, h6, h7, h8⟩, by trivial⟩
    · have hcf2 : ¬ hash_config config = s'.last_loaded_config_hash := by
        rw [h8]; exact hcf
      simp only [State.reload, if_neg hcf, if_neg hcf2]
      exact ⟨⟨hc, rfl, rfl, rfl, rfl, rfl, rfl, h7, rfl⟩, by trivial⟩

theorem logIfErr_rel (tag : String → LogE) (o' o : UWOut)
    (hs : stateRel o'.state o.state) (hr : o'.rng = o.rng)
    (hf : o'.fx = o.fx) (he : o'.err = o.err) :
    stateRel (logIfErr tag o').1 (logIfErr tag o).1 ∧
    (logIfErr tag o').2.1 = (logIfErr tag o).2.1 ∧
    (logIfErr tag o').2.2.1 = (logIfErr tag o).2.2.1 ∧
    (logIfErr tag o').2.2.2 = (logIfErr tag o).2.2.2 := by
  rw [logIfErr, logIfErr, he]
  rcases ho : o.err with _ | e
  · exact ⟨hs, hr, rfl, hf⟩
  · exact ⟨hs, hr, rfl, hf⟩

theorem handleMsg_rel (denv : DaemonEnv) (hnc : denv.loadedCache = none)
    (msg : IpcEvent) (s' s : State) (rng : List Nat) (h : stateRel s' s) :
    stateRel (handleMsg denv s' rng msg).1 (handleMsg denv s rng msg).1 ∧
    (handleMsg denv s' rng msg).2.1 = (handleMsg denv s rng msg).2.1 ∧
    (handleMsg denv s' rng msg).2.2.1 = (handleMsg denv s rng msg).2.2.1 ∧
    (handleMsg denv s' rng msg).2.2.2 = (handleMsg denv s rng msg).2.2.2 := by
  cases msg with
  | Reload =>
    simp only [handleMsg, hnc]
    refine ⟨(force_reload_none_rel s' s h denv.loadedConfig).1, ?_, ?_, ?_⟩
    · trivial
    · exact (force_reload_none_rel s' s h denv.loadedConfig).2
    · trivial
  | Switch monitor =>
    have huw := uw_rel s' s h
      (match monitor with
        | some m => Monitors.Some [m]
        | none => Monitors.All) denv.env rng
    simp only [handleMsg, switchCmd]
    exact logIfErr_rel LogE.cantSwitch _ _ huw.1 huw.2.1 huw.2.2.1 huw.2.2.2
  | Select path keep_old =>
    obtain ⟨hc, h1, h2, h3, h4, h5, h6, h7, h8⟩ := h
    have hrel1 : stateRel
        { s' with config := { s'.config with images :=
            (if keep_old then
              ((denv.selectFiles path).foldl
                (fun acc p => binsert p [ValidTime.ALL] acc) []).foldl
                (fun acc kv => binsert kv.1 kv.2 acc) s.config.images
            else (denv.selectFiles path).foldl
              (fun acc p => binsert p [ValidTime.ALL] acc) []) } }
        { s with config := { s.config with images :=
            (if keep_old then
              ((denv.selectFiles path).foldl
                (fun acc p => binsert p [ValidTime.ALL] acc) []).foldl
                (fun acc kv => binsert kv.1 kv.2 acc) s.config.images
            else (denv.selectFiles path).foldl
              (fun acc p => binsert p [ValidTime.ALL] acc) []) } } := by
      exact ⟨hc, rfl, h2, h3, h4, h5, h6, h7, h8⟩
    have huw := uw_rel _ _ hrel1 Monitors.All denv.env rng
    simp only [handleMsg, selectCmd, h1]
    exact logIfErr_rel LogE.cantSelect _ _ huw.1 huw.2.1 huw.2.2.1 huw.2.2.2

theorem stateRel_core (s' s : State) (h : stateRel s' s) :
    s'.config.core = s.config.core := by
  obtain ⟨hc, h1, h2, h3, h4, h5, h6, h7, h8⟩ := h
  simp [Config.core, h1, h2, h3, h4, h5, h6]

theorem batch_rel (denv : DaemonEnv) (hnc : denv.loadedCache = none) :
    ∀ (msgs : List IpcEvent) (a' a : State × List Nat × List LogE × List Effect),
      stateRel a'.1 a.1 → a'.2.1 = a.2.1 → a'.2.2.1 = a.2.2.1 →
      a'.2.2.2 = a.2.2.2 →
      stateRel (msgs.foldl
          (fun acc msg =>
            let r := handleMsg denv acc.1 acc.2.1 msg
            (r.1, r.2.1, acc.2.2.1 ++ r.2.2.1, acc.2.2.2 ++ r.2.2.2)) a').1
        (msgs.foldl
          (fun acc msg =>
            let r := handleMsg denv acc.1 acc.2.1 msg
            (r.1, r.2.1, acc.2.2.1 ++ r.2.2.1, acc.2.2.2 ++ r.2.2.2)) a).1 ∧
      (msgs.foldl
          (fun acc msg =>
            let r := handleMsg denv acc.1 acc.2.1 msg
            (r.1, r.2.1, acc.2.2.1 ++ r.2.2.1, acc.2.2.2 ++ r.2.2.2)) a').2.1 =
        (msgs.foldl
          (fun acc msg =>
            let r := handleMsg denv acc.1 acc.2.1 msg
            (r.1, r.2.1, acc.2.2.1 ++ r.2.2.1, acc.2.2.2 ++ r.2.2.2)) a).2.1 ∧
      (msgs.foldl
          (fun acc msg =>
            let r := handleMsg denv acc.1 acc.2.1 msg
            (r.1, r.2.1, acc.2.2.1 ++ r.2.2.1, acc.2.2.2 ++ r.2.2.2)) a').2.2.1 =
        (msgs.foldl
          (fun acc msg =>
            let r := handleMsg denv acc.1 acc.2.1 msg
            (r.1, r.2.1, acc.2.2.1 ++ r.2.2.1, acc.2.2.2 ++ r.2.2.2)) a).2.2.1 ∧
      (msgs.foldl
          (fun acc msg =>
            let r := handleMsg denv acc.1 acc.2.1 msg
            (r.1, r.2.1, acc.2.2.1 ++ r.2.2.1, acc.2.2.2 ++ r.2.2.2)) a').2.2.2 =
        (msgs.foldl
          (fun acc msg =>
            let r := handleMsg denv acc.1 acc.2.1 msg
            (r.1, r.2.1, acc.2.2.1 ++ r.2.2.1, acc.2.2.2 ++ r.2.2.2)) a).2.2.2 := by
  intro msgs
  induction msgs with
  | nil =>
    intro a' a hs hr hl hf
    exact ⟨hs, hr, hl, hf⟩
  | cons msg rest ih =>
    intro a' a hs hr hl hf
    obtain ⟨s1, r1, l1, f1⟩ := a'
    obtain ⟨s2, r2, l2, f2⟩ := a
    dsimp only at hs hr hl hf
    subst hr
    subst hl
    subst hf
    rw [List.foldl_cons, List.foldl_cons]
    have hh := handleMsg_rel denv hnc msg s1 s2 r1 hs
    exact ih _ _ hh.1 hh.2.1 (by dsimp only; rw [hh.2.2.1])
      (by dsimp only; rw [hh.2.2.2])

theorem daemonTail_rel (denv : DaemonEnv) (hnc : denv.loadedCache = none)
    (ci : Nat) (msgs : List IpcEvent) (s' s : State) (rng : List Nat)
    (fx : List Effect) (h : stateRel s' s) :
    (daemonTail denv ci msgs s' rng fx).obs =
      (daemonTail denv ci msgs s rng fx).obs := by
  simp only [daemonTail]
  by_cases hsl : U64MAX < ci - denv.currentTimeNs % ci
  · rw [if_pos hsl, if_pos hsl]
  · rw [if_neg hsl, if_neg hsl]
    have hb := batch_rel denv hnc msgs (s', rng, [], fx) (s, rng, [], fx)
      h rfl rfl rfl
    have hr2 := reload_none_rel _ _ hb.1 denv.loadedConfig
    rw [hnc]
    simp only [LoopOutcome.obs]
    rw [hr2.1.1, stateRel_core _ _ hr2.1, hr2.2, hb.2.2.1, hb.2.2.2]

theorem daemonStep_obs_rel (denv : DaemonEnv) (hnc : denv.loadedCache = none)
    (msgs : List IpcEvent) (rng : List Nat) (s' s : State) (h : stateRel s' s) :
    (daemonStep s' denv msgs rng).obs = (daemonStep s denv msgs rng).obs := by
  obtain ⟨hc, h1, h2, h3, h4, h5, h6, h7, h8⟩ := h
  simp only [daemonStep, hc, h5, h6]
  by_cases hdue : s.cache.last_update / s.config.update_interval <
      denv.currentTimeNs / s.config.update_interval
  · simp only [if_pos hdue]
    have huw := uw_rel s' s ⟨hc, h1, h2, h3, h4, h5, h6, h7, h8⟩
      Monitors.All denv.env rng
    rw [huw.2.2.2]
    rcases ho : (update_wallpapers s Monitors.All denv.env rng).err with _ | e
    · simp only [ho]
      rw [huw.2.1, huw.2.2.1]
      exact daemonTail_rel denv hnc s.config.check_interval msgs _ _ _ _ huw.1
    · simp only [ho]
  · simp only [if_neg hdue]
    exact daemonTail_rel denv hnc s.config.check_interval msgs s' s rng []
      ⟨hc, h1, h2, h3, h4, h5, h6, h7, h8⟩

/-- C10 (implicit): the configured `monitors` selector never restricts which
connected monitors a wallpaper-swap pass targets.  First conjunct: a pass is
entirely insensitive to `config.monitors` — changing the selector changes
nothing of the pass outcome (targets, picks, effects, randomness, error, new
cache) except that the final state carries the changed selector.  Second
conjunct: a whole daemon cycle (timer-driven pass, `Switch`/`Select`/`Reload`
handling, end-of-cycle reload) is observation-equal under a changed selector
whenever no freshly loaded cache is present — i.e. `config.monitors` can
influence the daemon only through the cache-merge filter of reconciliation. -/
theorem C10_selector_never_targets (s : State) (sel ms : Monitors) (env : Env)
    (rng : List Nat) (denv : DaemonEnv) (msgs : List IpcEvent)
    (hnc : denv.loadedCache = none) :
    (update_wallpapers { s with config := { s.config with monitors := sel } }
        ms env rng =
      { update_wallpapers s ms env rng with
        state := { { s with config := { s.config with monitors := sel } } with
          cache := (update_wallpapers s ms env rng).state.cache } }) ∧
    (daemonStep { s with config := { s.config with monitors := sel } }
        denv msgs rng).obs = (daemonStep s denv msgs rng).obs :=
  ⟨update_wallpapers_congr
      { s with config := { s.config with monitors := sel } } s
      rfl rfl rfl rfl rfl ms env rng,
   daemonStep_obs_rel denv hnc msgs rng
     { s with config := { s.config with monitors := sel } } s
     ⟨rfl, rfl, rfl, rfl, rfl, rfl, rfl, rfl, rfl⟩⟩

/-- Daemon environment used by the C10 witness: no freshly loaded files. -/
def c10_denv : DaemonEnv := ⟨scenE_env, none, none, 160, (fun _ => [])⟩

/-- Witness for C10 at a concrete input. -/
theorem C10_witness :
    c10_denv.loadedCache = none ∧
    ((update_wallpapers
        { scenE_state with
          config := { scenE_state.config with monitors := Monitors.Some [("X")] } }
        Monitors.All scenE_env [] =
      { update_wallpapers scenE_state Monitors.All scenE_env [] with
        state := { { scenE_state with
            config := { scenE_state.config with monitors := Monitors.Some [("X")] } } with
          cache := (update_wallpapers scenE_state Monitors.All scenE_env
            []).state.cache } }) ∧
    (daemonStep
        { scenE_state with
          config := { scenE_state.config with monitors := Monitors.Some [("X")] } }
        c10_denv [IpcEvent.Switch none] []).obs =
      (daemonStep scenE_state c10_denv [IpcEvent.Switch none] []).obs) :=
  ⟨rfl, C10_selector_never_targets scenE_state (Monitors.Some [("X")])
    Monitors.All scenE_env [] c10_denv [IpcEvent.Switch none] rfl⟩

/-! Claim C8: serialization round trip of ValidTime. -/

theorem digit_isDigit : ∀ d, d < 10 → (digitChar d).isDigit = true := by decide

theorem digit_val : ∀ d, d < 10 → digitVal (digitChar d) = d := by decide

theorem digit_ne_colon : ∀ d, d < 10 → digitChar d ≠ ':' := by decide

theorem charsLt_irrefl : ∀ a : List Char, charsLt a a = false := by
  intro a
  induction a with
  | nil => rfl
  | cons x xs ih =>
    rw [charsLt, if_neg (by omega), if_neg (by omega)]
    exact ih

theorem charsLt_asymm : ∀ a b : List Char, charsLt a b = true →
    charsLt b a = false := by
  intro a
  induction a with
  | nil =>
    intro b h
    cases b with
    | nil => simp [charsLt] at h
    | cons y ys => rfl
  | cons x xs ih =>
    intro b h
    cases b with
    | nil => simp [charsLt] at h
    | cons y ys =>
      rw [charsLt] at h ⊢
      by_cases h1 : x.toNat < y.toNat
      · rw [if_neg (by omega), if_pos h1]
      · rw [if_neg h1] at h
        by_cases h2 : y.toNat < x.toNat
        · rw [if_pos h2] at h
          exact absurd h (by simp)
        · rw [if_neg h2] at h
          rw [if_neg h2, if_neg h1]
          exact ih ys h

theorem strLt_asymm (a b : String) (h : strLt a b = true) :
    strLt b a = false :=
  charsLt_asymm a.data b.data h

theorem strLt_ne (a b : String) (h : strLt a b = true) : a ≠ b := by
  intro he
  subst he
  rw [strLt, charsLt_irrefl] at h
  exact Bool.false_ne_true h

theorem binsert_append {α : Type} (k : String) (v : α) :
    ∀ acc : List (String × α), (∀ kv ∈ acc, strLt kv.1 k = true) →
      binsert k v acc = acc ++ [(k, v)] := by
  intro acc
  induction acc with
  | nil => intro _; rfl
  | cons kv rest ih =>
    intro h
    obtain ⟨k0, v0⟩ := kv
    have hlt : strLt k0 k = true := h (k0, v0) (List.mem_cons_self _ _)
    have hne : (k == k0) = false := by
      have := strLt_ne k0 k hlt
      simp
      exact fun he => this he.symm
    rw [binsert, if_neg (by rw [strLt_asymm k0 k hlt]; simp),
      if_neg (by simp [hne])]
    rw [ih (fun kv hkv => h kv (List.mem_cons_of_mem _ hkv))]
    rfl

/-- Decimal digits of `n`, most significant first, as Rust's `Display` for
unsigned integers prints them.  Fuel-based so that it reduces in the kernel;
`n + 1` steps always suffice because the argument shrinks by a factor of
ten. -/
def natDigitsAux : Nat → Nat → List Char → List Char
  | 0, _, acc => acc
  | fuel + 1, n, acc =>
    if n < 10 then digitChar n :: acc
    else natDigitsAux fuel (n / 10) (digitChar (n % 10) :: acc)

/-- Decimal rendering of a natural number. -/
def natDigits (n : Nat) : List Char := natDigitsAux (n + 1) n []

/-- Value of a decimal digit string (most significant first). -/
def digitsVal (cs : List Char) : Nat :=
  cs.foldl (fun acc c => acc * 10 + digitVal c) 0

/-- Longest digit prefix and the remainder, as humantime's number scanner
consumes consecutive ASCII digits. -/
def takeDigitsRun : List Char → List Char × List Char
  | [] => ([], [])
  | c :: rest =>
    if c.isDigit then
      let p := takeDigitsRun rest
      (c :: p.1, p.2)
    else ([], c :: rest)

/-- Longest alphabetic prefix and the remainder, as humantime's unit scanner
consumes consecutive letters. -/
def takeAlphaRun : List Char → List Char × List Char
  | [] => ([], [])
  | c :: rest =>
    if c.isAlpha then
      let p := takeAlphaRun rest
      (c :: p.1, p.2)
    else ([], c :: rest)

theorem foldl_binsert_rebuild {α : Type} :
    ∀ (l acc : List (String × α)),
      List.Pairwise (fun a b => strLt a.1 b.1 = true) (acc ++ l) →
      l.foldl (fun acc kv => binsert kv.1 kv.2 acc) acc = acc ++ l := by
  intro l
  induction l with
  | nil => intro acc _; simp
  | cons kv rest ih =>
    intro acc hp
    obtain ⟨k, v⟩ := kv
    rw [List.foldl_cons]
    have hacc : ∀ x ∈ acc, strLt x.1 k = true := by
      intro x hx
      exact (List.pairwise_append.mp hp).2.2 x hx (k, v)
        (List.mem_cons_self _ _)
    rw [binsert_append k v acc hacc]
    have hre : (acc ++ [(k, v)]) ++ rest = acc ++ (k, v) :: rest := by simp
    rw [ih (acc ++ [(k, v)]) (by rw [hre]; exact hp)]
    simp

theorem digitsVal_init (cs : List Char) :
    ∀ a : Nat, cs.foldl (fun acc c => acc * 10 + digitVal c) a =
      a * 10 ^ cs.length + digitsVal cs := by
  induction cs with
  | nil => intro a; simp [digitsVal]
  | cons c rest ih =>
    intro a
    rw [digitsVal, List.foldl_cons, List.foldl_cons, ih,
      ih (0 * 10 + digitVal c)]
    rw [List.length_cons]
    ring

theorem natDigitsAux_spec :
    ∀ (fuel n : Nat) (acc : List Char), n < fuel →
      natDigitsAux fuel n acc ≠ [] ∧
      (∀ c ∈ natDigitsAux fuel n acc,
        c ∈ acc ∨ ∃ d, d < 10 ∧ c = digitChar d) ∧
      digitsVal (natDigitsAux fuel n acc) =
        n * 10 ^ acc.length + digitsVal acc := by
  intro fuel
  induction fuel with
  | zero => intro n acc h; omega
  | succ f ih =>
    intro n acc h
    by_cases h10 : n < 10
    · rw [natDigitsAux, if_pos h10]
      refine ⟨by simp, ?_, ?_⟩
      · intro c hc
        rcases List.mem_cons.mp hc with rfl | hc
        · exact Or.inr ⟨n, h10, rfl⟩
        · exact Or.inl hc
      · rw [digitsVal, List.foldl_cons, digitsVal_init]
        rw [digit_val n h10]
        simp [digitsVal]
    · rw [natDigitsAux, if_neg h10]
      have hlt : n / 10 < f := by omega
      obtain ⟨hne, hmem, hval⟩ := ih (n / 10) (digitChar (n % 10) :: acc) hlt
      refine ⟨hne, ?_, ?_⟩
      · intro c hc
        rcases hmem c hc with hc2 | hd
        · rcases List.mem_cons.mp hc2 with rfl | hc3
          · exact Or.inr ⟨n % 10, by omega, rfl⟩
          · exact Or.inl hc3
        · exact Or.inr hd
      · rw [hval, digitsVal, List.foldl_cons, digitsVal_init]
        rw [digit_val (n % 10) (by omega)]
        simp only [List.length_cons, pow_succ, Nat.zero_mul, Nat.zero_add]
        have hdm : n = 10 * (n / 10) + n % 10 := by omega
        conv_rhs => rw [hdm]
        rw [digitsVal]
        ring

theorem natDigits_val (n : Nat) : digitsVal (natDigits n) = n := by
  have h := (natDigitsAux_spec (n + 1) n [] (by omega)).2.2
  rw [natDigits, h]
  simp [digitsVal]

theorem natDigits_ne_nil (n : Nat) : natDigits n ≠ [] :=
  (natDigitsAux_spec (n + 1) n [] (by omega)).1

theorem natDigits_digits (n : Nat) :
    ∀ c ∈ natDigits n, ∃ d, d < 10 ∧ c = digitChar d := by
  intro c hc
  rcases (natDigitsAux_spec (n + 1) n [] (by omega)).2.1 c hc with h | h
  · simp at h
  · exact h

theorem natDigits_isDigit (n : Nat) : ∀ c ∈ natDigits n, c.isDigit = true := by
  intro c hc
  obtain ⟨d, hd, rfl⟩ := natDigits_digits n c hc
  exact digit_isDigit d hd

theorem takeDigitsRun_spec :
    ∀ (ds rest : List Char), (∀ c ∈ ds, c.isDigit = true) →
      (∀ c cs, rest = c :: cs → c.isDigit = false) →
      takeDigitsRun (ds ++ rest) = (ds, rest) := by
  intro ds
  induction ds with
  | nil =>
    intro rest _ hr
    cases rest with
    | nil => rfl
    | cons c cs =>
      rw [List.nil_append, takeDigitsRun, if_neg (by rw [hr c cs rfl]; simp)]
  | cons c cs ih =>
    intro rest hd hr
    rw [List.cons_append, takeDigitsRun,
      if_pos (hd c (List.mem_cons_self _ _))]
    rw [ih rest (fun x hx => hd x (List.mem_cons_of_mem _ hx)) hr]

theorem takeAlphaRun_spec :
    ∀ (al rest : List Char), (∀ c ∈ al, c.isAlpha = true) →
      (∀ c cs, rest = c :: cs → c.isAlpha = false) →
      takeAlphaRun (al ++ rest) = (al, rest) := by
  intro al
  induction al with
  | nil =>
    intro rest _ hr
    cases rest with
    | nil => rfl
    | cons c cs =>
      rw [List.nil_append, takeAlphaRun, if_neg (by rw [hr c cs rfl]; simp)]
  | cons c cs ih =>
    intro rest ha hr
    rw [List.cons_append, takeAlphaRun,
      if_pos (ha c (List.mem_cons_self _ _))]
    rw [ih rest (fun x hx => ha x (List.mem_cons_of_mem _ hx)) hr]

theorem digit_not_alpha : ∀ d, d < 10 → (digitChar d).isAlpha = false := by
  decide

end Wallpaper

namespace Wallpaper

/-- One output item of `humantime::format_duration`: a value, a unit name,
and whether the unit is pluralized (`item_plural` appends an `s` for values
above one).  The `fs`/`fn` fields record the unit's second/nanosecond factor
from humantime's parsing table; they are not used by formatting and only
drive the round-trip statement. -/
structure DurItem where
  v : Nat
  unit : List Char
  plural : Bool
  fs : Nat
  fn : Nat

/-- `item` / `item_plural` of humantime's duration formatter: decimal value,
unit name, and a plural `s` when the pluralizing form prints a value above
one. -/
def DurItem.emit (it : DurItem) : List Char :=
  natDigits it.v ++ it.unit ++ (if it.plural ∧ 1 < it.v then ['s'] else [])

/-- The formatter's item loop: zero-valued items are skipped, and a single
space separates printed items (the `started` flag). -/
def durJoin : List DurItem → Bool → List Char
  | [], _ => []
  | it :: rest, started =>
    if it.v = 0 then durJoin rest started
    else (if started then ' ' :: it.emit else it.emit) ++ durJoin rest true

/-- The nine items of `humantime::format_duration`, in output order, with
humantime's unit factors (a year is 365.25 days = 31557600 s, a month is
30.44 days = 2630016 s). -/
def durItems (secs nanos : Nat) : List DurItem :=
  [⟨secs / 31557600, ['y', 'e', 'a', 'r'], true, 31557600, 0⟩,
   ⟨secs % 31557600 / 2630016, ['m', 'o', 'n', 't', 'h'], true, 2630016, 0⟩,
   ⟨secs % 31557600 % 2630016 / 86400, ['d', 'a', 'y'], true, 86400, 0⟩,
   ⟨secs % 31557600 % 2630016 % 86400 / 3600, ['h'], false, 3600, 0⟩,
   ⟨secs % 31557600 % 2630016 % 86400 % 3600 / 60, ['m'], false, 60, 0⟩,
   ⟨secs % 31557600 % 2630016 % 86400 % 60, ['s'], false, 1, 0⟩,
   ⟨nanos / 1000000, ['m', 's'], false, 0, 1000000⟩,
   ⟨nanos / 1000 % 1000, ['u', 's'], false, 0, 1000⟩,
   ⟨nanos % 1000, ['n', 's'], false, 0, 1⟩]

/-- `humantime::format_duration` on a duration of `secs` seconds plus
`nanos` sub-second nanoseconds: `"0s"` for the zero duration, otherwise the
nonzero items joined by single spaces. -/
def fmtDuration (secs nanos : Nat) : List Char :=
  if secs = 0 ∧ nanos = 0 then ['0', 's']
  else durJoin (durItems secs nanos) false

/-- humantime's duration unit table: the seconds/nanoseconds contributed by
one unit of the given name (`parse_duration` accepts these spellings). -/
def unitFactor (u : List Char) : Option (Nat × Nat) :=
  if u = ['n', 'a', 'n', 'o', 's'] ∨ u = ['n', 's', 'e', 'c'] ∨
      u = ['n', 's'] then some (0, 1)
  else if u = ['u', 's', 'e', 'c'] ∨ u = ['u', 's'] then some (0, 1000)
  else if u = ['m', 'i', 'l', 'l', 'i', 's'] ∨ u = ['m', 's', 'e', 'c'] ∨
      u = ['m', 's'] then some (0, 1000000)
  else if u = ['s', 'e', 'c', 'o', 'n', 'd', 's'] ∨
      u = ['s', 'e', 'c', 'o', 'n', 'd'] ∨ u = ['s', 'e', 'c', 's'] ∨
      u = ['s', 'e', 'c'] ∨ u = ['s'] then some (1, 0)
  else if u = ['m', 'i', 'n', 'u', 't', 'e', 's'] ∨
      u = ['m', 'i', 'n', 'u', 't', 'e'] ∨ u = ['m', 'i', 'n', 's'] ∨
      u = ['m', 'i', 'n'] ∨ u = ['m'] then some (60, 0)
  else if u = ['h', 'o', 'u', 'r', 's'] ∨ u = ['h', 'o', 'u', 'r'] ∨
      u = ['h', 'r', 's'] ∨ u = ['h', 'r'] ∨ u = ['h'] then some (3600, 0)
  else if u = ['d', 'a', 'y', 's'] ∨ u = ['d', 'a', 'y'] ∨ u = ['d'] then
    some (86400, 0)
  else if u = ['w', 'e', 'e', 'k', 's'] ∨ u = ['w', 'e', 'e', 'k'] ∨
      u = ['w'] then some (604800, 0)
  else if u = ['m', 'o', 'n', 't', 'h', 's'] ∨
      u = ['m', 'o', 'n', 't', 'h'] ∨ u = ['M'] then some (2630016, 0)
  else if u = ['y', 'e', 'a', 'r', 's'] ∨ u = ['y', 'e', 'a', 'r'] ∨
      u = ['y'] then some (31557600, 0)
  else none

/-- The item loop of `humantime::parse_duration`: a decimal number, a unit
name, then either the end of input, a single separating space, or directly
the next number.  Contributions accumulate into seconds and nanoseconds and
excess nanoseconds carry into the seconds (`Duration::new`).  Fuel-based
(each iteration consumes at least one character). -/
def pdLoop : Nat → List Char → Nat → Nat → Option (Nat × Nat)
  | 0, _, _, _ => none
  | fuel + 1, cs, accS, accN =>
    if (takeDigitsRun cs).1 = [] then none
    else
      match unitFactor (takeAlphaRun ((takeDigitsRun cs).2)).1 with
      | none => none
      | some (fs, fn) =>
        match (takeAlphaRun ((takeDigitsRun cs).2)).2 with
        | [] =>
          some (accS + digitsVal (takeDigitsRun cs).1 * fs +
              (accN + digitsVal (takeDigitsRun cs).1 * fn) / 1000000000,
            (accN + digitsVal (takeDigitsRun cs).1 * fn) % 1000000000)
        | c :: rest =>
          if c = ' ' then
            pdLoop fuel rest (accS + digitsVal (takeDigitsRun cs).1 * fs)
              (accN + digitsVal (takeDigitsRun cs).1 * fn)
          else if c.isDigit then
            pdLoop fuel (c :: rest)
              (accS + digitsVal (takeDigitsRun cs).1 * fs)
              (accN + digitsVal (takeDigitsRun cs).1 * fn)
          else none

/-- `str::parse::<humantime::Duration>` (`humantime::parse_duration`),
returning whole seconds and sub-second nanoseconds. -/
def parseDuration (cs : List Char) : Option (Nat × Nat) :=
  pdLoop cs.length cs 0 0

/-- Facts about a formatter item that the parser needs: a nonempty
all-alphabetic unit name whose singular (and, for pluralizing items, plural)
spelling is in the parsing table with the item's factors. -/
def durOk (it : DurItem) : Prop :=
  it.unit ≠ [] ∧
  (∀ c ∈ it.unit, c.isAlpha = true ∧ c.isDigit = false) ∧
  unitFactor it.unit = some (it.fs, it.fn) ∧
  (it.plural = true → unitFactor (it.unit ++ ['s']) = some (it.fs, it.fn))

/-- Total seconds contributed by a list of items. -/
def sumS (items : List DurItem) : Nat :=
  (items.map (fun it => it.v * it.fs)).sum

/-- Total nanoseconds contributed by a list of items. -/
def sumN (items : List DurItem) : Nat :=
  (items.map (fun it => it.v * it.fn)).sum

end Wallpaper

namespace Wallpaper

theorem durJoin_true_cases :
    ∀ items : List DurItem,
      (durJoin items true = [] ∧ durJoin items false = [] ∧
        sumS items = 0 ∧ sumN items = 0) ∨
      ((∃ it ∈ items, it.v ≠ 0) ∧
        durJoin items true = ' ' :: durJoin items false) := by
  intro items
  induction items with
  | nil => exact Or.inl ⟨rfl, rfl, rfl, rfl⟩
  | cons it rest ih =>
    by_cases hv : it.v = 0
    · rcases ih with ⟨h1, h2, h3, h4⟩ | ⟨⟨w, hw, hwv⟩, h2⟩
      · refine Or.inl ⟨?_, ?_, ?_, ?_⟩
        · rw [durJoin, if_pos hv]; exact h1
        · rw [durJoin, if_pos hv]; exact h2
        · simp only [sumS, List.map_cons, List.sum_cons] at h3 ⊢
          simp [hv, h3]
        · simp only [sumN, List.map_cons, List.sum_cons] at h4 ⊢
          simp [hv, h4]
      · refine Or.inr ⟨⟨w, List.mem_cons_of_mem _ hw, hwv⟩, ?_⟩
        rw [durJoin, if_pos hv, durJoin, if_pos hv]
        exact h2
    · refine Or.inr ⟨⟨it, List.mem_cons_self _ _, hv⟩, ?_⟩
      rw [durJoin, if_neg hv, durJoin, if_neg hv]
      rw [if_pos rfl, if_neg (by simp)]
      rfl

theorem pdLoop_durJoin :
    ∀ (items : List DurItem) (fuel accS accN : Nat),
      (∀ it ∈ items, durOk it) →
      (∃ it ∈ items, it.v ≠ 0) →
      (durJoin items false).length ≤ fuel →
      pdLoop fuel (durJoin items false) accS accN =
        some (accS + sumS items + (accN + sumN items) / 1000000000,
          (accN + sumN items) % 1000000000) := by
  intro items
  induction items with
  | nil =>
    intro fuel accS accN _ hex _
    simp at hex
  | cons it rest ih =>
    intro fuel accS accN hok hex hfuel
    have hok' : ∀ x ∈ rest, durOk x :=
      fun x hx => hok x (List.mem_cons_of_mem _ hx)
    by_cases hv : it.v = 0
    · rw [durJoin, if_pos hv] at hfuel ⊢
      have hex' : ∃ x ∈ rest, x.v ≠ 0 := by
        rcases hex with ⟨w, hw, hwv⟩
        rcases List.mem_cons.mp hw with rfl | hw2
        · exact absurd hv hwv
        · exact ⟨w, hw2, hwv⟩
      rw [ih fuel accS accN hok' hex' hfuel]
      simp only [sumS, sumN, List.map_cons, List.sum_cons, hv, Nat.zero_mul,
        Nat.zero_add]
    · obtain ⟨hune, hchars, hfac, hfacp⟩ := hok it (List.mem_cons_self _ _)
      obtain ⟨u0, us, hu⟩ := List.exists_cons_of_ne_nil hune
      rw [durJoin, if_neg hv, if_neg (by simp)] at hfuel ⊢
      have hpt_alpha : ∀ c ∈ (if it.plural ∧ 1 < it.v then ['s'] else []),
          c.isAlpha = true := by
        intro c hc
        by_cases hp : it.plural ∧ 1 < it.v
        · rw [if_pos hp] at hc
          rcases List.mem_singleton.mp hc with rfl
          decide
        · rw [if_neg hp] at hc
          simp at hc
      have hemit : DurItem.emit it = natDigits it.v ++
          (it.unit ++ (if it.plural ∧ 1 < it.v then ['s'] else [])) := by
        rw [DurItem.emit, List.append_assoc]
      have hhead : ∀ c cs',
          it.unit ++ (if it.plural ∧ 1 < it.v then ['s'] else []) = c :: cs' →
          c.isDigit = false := by
        intro c cs' hcc
        rw [hu, List.cons_append] at hcc
        injection hcc with h1 _
        rw [← h1]
        exact (hchars u0 (by rw [hu]; exact List.mem_cons_self _ _)).2
      have halpha_all : ∀ c ∈ it.unit ++
          (if it.plural ∧ 1 < it.v then ['s'] else []), c.isAlpha = true := by
        intro c hc
        rcases List.mem_append.mp hc with hc1 | hc2
        · exact (hchars c hc1).1
        · exact hpt_alpha c hc2
      have hufac : unitFactor
          (it.unit ++ (if it.plural ∧ 1 < it.v then ['s'] else [])) =
          some (it.fs, it.fn) := by
        by_cases hp : it.plural ∧ 1 < it.v
        · rw [if_pos hp]
          exact hfacp hp.1
        · rw [if_neg hp, List.append_nil]
          exact hfac
      rcases durJoin_true_cases rest with ⟨hj1, _, hs0, hn0⟩ | ⟨hexr, hjt⟩
      · rw [hj1, List.append_nil] at hfuel ⊢
        cases fuel with
        | zero =>
          exfalso
          have h1 : (natDigits it.v).length ≠ 0 := by
            intro h
            exact natDigits_ne_nil it.v (List.length_eq_zero.mp h)
          rw [hemit] at hfuel
          rw [List.length_append] at hfuel
          omega
        | succ f =>
          rw [hemit]
          have htake := takeDigitsRun_spec (natDigits it.v)
            (it.unit ++ (if it.plural ∧ 1 < it.v then ['s'] else []))
            (natDigits_isDigit it.v) hhead
          have halpha := takeAlphaRun_spec
            (it.unit ++ (if it.plural ∧ 1 < it.v then ['s'] else [])) []
            halpha_all (by intro c cs' h; simp at h)
          rw [List.append_nil] at halpha
          rw [pdLoop, htake]
          dsimp only
          rw [if_neg (natDigits_ne_nil it.v), halpha]
          dsimp only
          rw [hufac]
          dsimp only
          rw [natDigits_val]
          have e1 : accS + it.v * it.fs +
              (accN + it.v * it.fn) / 1000000000 =
              accS + sumS (it :: rest) +
                (accN + sumN (it :: rest)) / 1000000000 := by
            simp only [sumS, sumN, List.map_cons, List.sum_cons, hs0, hn0]
            simp only [sumS, List.map_cons, List.sum_cons] at hs0
            simp only [sumN, List.map_cons, List.sum_cons] at hn0
            omega
          have e2 : (accN + it.v * it.fn) % 1000000000 =
              (accN + sumN (it :: rest)) % 1000000000 := by
            simp only [sumN, List.map_cons, List.sum_cons]
            simp only [sumN] at hn0
            omega
          rw [e1, e2]
      · rw [hjt] at hfuel ⊢
        cases fuel with
        | zero =>
          exfalso
          rw [List.length_append, List.length_cons] at hfuel
          omega
        | succ f =>
          rw [hemit, List.append_assoc] at hfuel ⊢
          have htake := takeDigitsRun_spec (natDigits it.v)
            ((it.unit ++ (if it.plural ∧ 1 < it.v then ['s'] else [])) ++
              ' ' :: durJoin rest false)
            (natDigits_isDigit it.v)
            (by
              intro c cs' hcc
              cases hu2 : it.unit ++
                  (if it.plural ∧ 1 < it.v then ['s'] else []) with
              | nil =>
                exfalso
                rw [hu, List.cons_append] at hu2
                exact List.cons_ne_nil _ _ hu2
              | cons a as =>
                rw [hu2, List.cons_append] at hcc
                injection hcc with h1 _
                rw [← h1]
                exact hhead a as hu2)
          have halpha := takeAlphaRun_spec
            (it.unit ++ (if it.plural ∧ 1 < it.v then ['s'] else []))
            (' ' :: durJoin rest false) halpha_all
            (by intro c cs' h; injection h with h1 _; rw [← h1]; decide)
          rw [pdLoop, htake]
          dsimp only
          rw [if_neg (natDigits_ne_nil it.v), halpha]
          dsimp only
          rw [hufac]
          dsimp only
          rw [if_pos rfl, natDigits_val]
          have hflen : (durJoin rest false).length ≤ f := by
            simp only [List.length_append, List.length_cons] at hfuel
            omega
          rw [ih f (accS + it.v * it.fs) (accN + it.v * it.fn) hok' hexr
            hflen]
          have e1 : accS + it.v * it.fs + sumS rest +
              (accN + it.v * it.fn + sumN rest) / 1000000000 =
              accS + sumS (it :: rest) +
                (accN + sumN (it :: rest)) / 1000000000 := by
            simp only [sumS, sumN, List.map_cons, List.sum_cons]
            omega
          have e2 : (accN + it.v * it.fn + sumN rest) % 1000000000 =
              (accN + sumN (it :: rest)) % 1000000000 := by
            simp only [sumN, List.map_cons, List.sum_cons]
            omega
          rw [e1, e2]

/-- The March-based month scan of the date algorithm in
`humantime::format_rfc3339` (musl's `__secs_to_tm`): the source iterates
over the month lengths `[31,30,31,30,31,31,30,31,30,31,31,29]` (March
first, the leap day at the end of the cycle year), incrementing `mon` and
subtracting each length until `remdays` falls inside a month; this unrolls
that loop into cumulative bounds.  Returns the March-based month (1-12) and
the 1-based day of month. -/
def monScan (r : Nat) : Nat × Nat :=
  if r < 31 then (1, r + 1)
  else if r < 61 then (2, r - 30)
  else if r < 92 then (3, r - 60)
  else if r < 122 then (4, r - 91)
  else if r < 153 then (5, r - 121)
  else if r < 184 then (6, r - 152)
  else if r < 214 then (7, r - 183)
  else if r < 245 then (8, r - 213)
  else if r < 275 then (9, r - 244)
  else if r < 306 then (10, r - 274)
  else if r < 337 then (11, r - 305)
  else (12, r - 336)

/-- Final stage of the `__secs_to_tm` date algorithm: build the civil date
from the cycle counts (`qc_cycles + 1`, `c_cycles`, `q_cycles`, `remyears`)
and the day inside the March-based year, shifting March-based months back
to calendar months (`mon + 2`, rolling January/February into the next
year). -/
def civilYMD (qcN c q ry rem3 : Nat) : Nat × Nat × Nat :=
  let year0 := 1600 + 400 * qcN + 100 * c + 4 * q + ry
  let ms := monScan rem3
  if ms.1 + 2 > 12 then (year0 + 1, ms.1 - 10, ms.2)
  else (year0, ms.1 + 2, ms.2)

/-- Year stage of `__secs_to_tm`: `remyears = remdays / 365` with the
`== 4` clamp. -/
def civilStage3 (qcN c q rem2 : Nat) : Nat × Nat × Nat :=
  let ry0 := rem2 / 365
  let ry := if ry0 = 4 then 3 else ry0
  civilYMD qcN c q ry (rem2 - ry * 365)

/-- Four-year stage of `__secs_to_tm`: `q_cycles = remdays / 1461` with the
`== 25` clamp. -/
def civilStage2 (qcN c rem1 : Nat) : Nat × Nat × Nat :=
  let q0 := rem1 / 1461
  let q := if q0 = 25 then 24 else q0
  civilStage3 qcN c q (rem1 - q * 1461)

/-- Century stage of `__secs_to_tm`: `c_cycles = remdays / 36524` with the
`== 4` clamp. -/
def civilStage1 (qcN remdays : Nat) : Nat × Nat × Nat :=
  let c0 := remdays / 36524
  let c := if c0 = 4 then 3 else c0
  civilStage2 qcN c (remdays - c * 36524)

/-- Civil date (year, month 1-12, day of month) of a day count since the
Unix epoch, following the date algorithm of `humantime::format_rfc3339`
(musl's `__secs_to_tm`, anchored at 2000-03-01 = epoch day 11017, with
cycle lengths 146097/36524/1461/365 days).  The source computes
`days - 11017` in signed arithmetic and fixes a negative remainder up by
one 400-year cycle after the first division; adding one full cycle
(146097 days, `135080 = 146097 - 11017`) before dividing performs the same
computation in unsigned arithmetic, with the extra cycle subtracted back in
the year base (2000 - 400 = 1600).  The source's sequence of locals is
split into the stage functions above. -/
def civilFromDays (days0 : Nat) : Nat × Nat × Nat :=
  civilStage1 ((days0 + 135080) / 146097) ((days0 + 135080) % 146097)

/-- `is_leap_year` from humantime's date module. -/
def isLeapB (y : Nat) : Bool :=
  y % 4 == 0 && (y % 100 != 0 || y % 400 == 0)

/-- The per-month (cumulative days before the month, non-leap month length)
table used by `humantime::parse_rfc3339_weak`; `none` for an out-of-range
month (which the parser rejects). -/
def monTable : Nat → Option (Nat × Nat)
  | 1 => some (0, 31)
  | 2 => some (31, 28)
  | 3 => some (59, 31)
  | 4 => some (90, 30)
  | 5 => some (120, 31)
  | 6 => some (151, 30)
  | 7 => some (181, 31)
  | 8 => some (212, 31)
  | 9 => some (243, 30)
  | 10 => some (273, 31)
  | 11 => some (304, 30)
  | 12 => some (334, 31)
  | _ => none

/-- Length of a month as the parser checks it (`mdays`, with February
lengthened to 29 in a leap year). -/
def monLen (leap : Bool) (m : Nat) : Nat :=
  match monTable m with
  | some p => if m = 2 ∧ leap = true then 29 else p.2
  | none => 0

/-- The day count `humantime::parse_rfc3339_weak` computes from a civil
date: `(year - 1970) * 365` plus the closed-form leap-year count
`((year-1)-1968)/4 - ((year-1)-1900)/100 + ((year-1)-1600)/400` plus the
day of year from the month table (with the post-February leap-day
adjustment). -/
def daysFromCivil (year mon day : Nat) : Nat :=
  let leap_years := (year - 1 - 1968) / 4 - (year - 1 - 1900) / 100 +
    (year - 1 - 1600) / 400
  let ydays0 := match monTable mon with
    | some p => p.1
    | none => 0
  let ydays := ydays0 + day - 1 +
    (if isLeapB year = true ∧ 2 < mon then 1 else 0)
  (year - 1970) * 365 + leap_years + ydays

/-- Validity and inverse property tying a civil date to its day count
shifted by the 400-year-cycle anchor: the date is a real calendar date in
the range the parser accepts, and the parser's day computation recovers the
day count. -/
def GoodDate (N : Nat) (t : Nat × Nat × Nat) : Prop :=
  1970 ≤ t.1 ∧ t.1 ≤ 9999 ∧ 1 ≤ t.2.1 ∧ t.2.1 ≤ 12 ∧ 1 ≤ t.2.2 ∧
  t.2.2 ≤ monLen (isLeapB t.1) t.2.1 ∧
  daysFromCivil t.1 t.2.1 t.2.2 + 135080 = N

theorem monScan_cases (r : Nat) :
    (r < 31 ∧ monScan r = (1, r + 1)) ∨
    (31 ≤ r ∧ r < 61 ∧ monScan r = (2, r - 30)) ∨
    (61 ≤ r ∧ r < 92 ∧ monScan r = (3, r - 60)) ∨
    (92 ≤ r ∧ r < 122 ∧ monScan r = (4, r - 91)) ∨
    (122 ≤ r ∧ r < 153 ∧ monScan r = (5, r - 121)) ∨
    (153 ≤ r ∧ r < 184 ∧ monScan r = (6, r - 152)) ∨
    (184 ≤ r ∧ r < 214 ∧ monScan r = (7, r - 183)) ∨
    (214 ≤ r ∧ r < 245 ∧ monScan r = (8, r - 213)) ∨
    (245 ≤ r ∧ r < 275 ∧ monScan r = (9, r - 244)) ∨
    (275 ≤ r ∧ r < 306 ∧ monScan r = (10, r - 274)) ∨
    (306 ≤ r ∧ r < 337 ∧ monScan r = (11, r - 305)) ∨
    (337 ≤ r ∧ monScan r = (12, r - 336)) := by
  by_cases h1 : r < 31
  · exact Or.inl ⟨h1, by rw [monScan, if_pos h1]⟩
  by_cases h2 : r < 61
  · refine Or.inr (Or.inl ⟨by omega, h2, ?_⟩)
    rw [monScan, if_neg h1, if_pos h2]
  by_cases h3 : r < 92
  · refine Or.inr (Or.inr (Or.inl ⟨by omega, h3, ?_⟩))
    rw [monScan, if_neg h1, if_neg h2, if_pos h3]
  by_cases h4 : r < 122
  · refine Or.inr (Or.inr (Or.inr (Or.inl ⟨by omega, h4, ?_⟩)))
    rw [monScan, if_neg h1, if_neg h2, if_neg h3, if_pos h4]
  by_cases h5 : r < 153
  · refine Or.inr (Or.inr (Or.inr (Or.inr (Or.inl ⟨by omega, h5, ?_⟩))))
    rw [monScan, if_neg h1, if_neg h2, if_neg h3, if_neg h4, if_pos h5]
  by_cases h6 : r < 184
  · refine Or.inr (Or.inr (Or.inr (Or.inr (Or.inr (Or.inl
      ⟨by omega, h6, ?_⟩)))))
    rw [monScan, if_neg h1, if_neg h2, if_neg h3, if_neg h4, if_neg h5,
      if_pos h6]
  by_cases h7 : r < 214
  · refine Or.inr (Or.inr (Or.inr (Or.inr (Or.inr (Or.inr (Or.inl
      ⟨by omega, h7, ?_⟩))))))
    rw [monScan, if_neg h1, if_neg h2, if_neg h3, if_neg h4, if_neg h5,
      if_neg h6, if_pos h7]
  by_cases h8 : r < 245
  · refine Or.inr (Or.inr (Or.inr (Or.inr (Or.inr (Or.inr (Or.inr (Or.inl
      ⟨by omega, h8, ?_⟩)))))))
    rw [monScan, if_neg h1, if_neg h2, if_neg h3, if_neg h4, if_neg h5,
      if_neg h6, if_neg h7, if_pos h8]
  by_cases h9 : r < 275
  · refine Or.inr (Or.inr (Or.inr (Or.inr (Or.inr (Or.inr (Or.inr (Or.inr
      (Or.inl ⟨by omega, h9, ?_⟩))))))))
    rw [monScan, if_neg h1, if_neg h2, if_neg h3, if_neg h4, if_neg h5,
      if_neg h6, if_neg h7, if_neg h8, if_pos h9]
  by_cases h10 : r < 306
  · refine Or.inr (Or.inr (Or.inr (Or.inr (Or.inr (Or.inr (Or.inr (Or.inr
      (Or.inr (Or.inl ⟨by omega, h10, ?_⟩)))))))))
    rw [monScan, if_neg h1, if_neg h2, if_neg h3, if_neg h4, if_neg h5,
      if_neg h6, if_neg h7, if_neg h8, if_neg h9, if_pos h10]
  by_cases h11 : r < 337
  · refine Or.inr (Or.inr (Or.inr (Or.inr (Or.inr (Or.inr (Or.inr (Or.inr
      (Or.inr (Or.inr (Or.inl ⟨by omega, h11, ?_⟩))))))))))
    rw [monScan, if_neg h1, if_neg h2, if_neg h3, if_neg h4, if_neg h5,
      if_neg h6, if_neg h7, if_neg h8, if_neg h9, if_neg h10, if_pos h11]
  · refine Or.inr (Or.inr (Or.inr (Or.inr (Or.inr (Or.inr (Or.inr (Or.inr
      (Or.inr (Or.inr (Or.inr ⟨by omega, ?_⟩))))))))))
    rw [monScan, if_neg h1, if_neg h2, if_neg h3, if_neg h4, if_neg h5,
      if_neg h6, if_neg h7, if_neg h8, if_neg h9, if_neg h10, if_neg h11]

theorem q4_base (A B C D : Nat) (hD : D ≤ 3) :
    (1600 + 400 * A + 100 * B + 4 * C + D - 1 - 1968) / 4 =
      if D = 0 then 100 * A + 25 * B + C - 93
      else 100 * A + 25 * B + C - 92 := by
  by_cases h : D = 0
  · rw [if_pos h]
    omega
  · rw [if_neg h]
    omega

theorem q100_base (A B C D : Nat) (hC : C ≤ 24) (hD : D ≤ 3) :
    (1600 + 400 * A + 100 * B + 4 * C + D - 1 - 1900) / 100 =
      if 4 * C + D = 0 then 4 * A + B - 4 else 4 * A + B - 3 := by
  by_cases h : 4 * C + D = 0
  · rw [if_pos h]
    omega
  · rw [if_neg h]
    omega

theorem q400_base (A B C D : Nat) (hB : B ≤ 3) (hC : C ≤ 24) (hD : D ≤ 3) :
    (1600 + 400 * A + 100 * B + 4 * C + D - 1 - 1600) / 400 =
      if 100 * B + 4 * C + D = 0 then A - 1 else A := by
  by_cases h : 100 * B + 4 * C + D = 0
  · rw [if_pos h]
    omega
  · rw [if_neg h]
    omega

theorem q4_wrap (A B C D : Nat) (hD : D ≤ 3) :
    (1600 + 400 * A + 100 * B + 4 * C + D + 1 - 1 - 1968) / 4 =
      100 * A + 25 * B + C - 92 := by
  omega

theorem q100_wrap (A B C D : Nat) (hC : C ≤ 24) (hD : D ≤ 3) :
    (1600 + 400 * A + 100 * B + 4 * C + D + 1 - 1 - 1900) / 100 =
      4 * A + B - 3 := by
  omega

theorem q400_wrap (A B C D : Nat) (hB : B ≤ 3) (hC : C ≤ 24) (hD : D ≤ 3) :
    (1600 + 400 * A + 100 * B + 4 * C + D + 1 - 1 - 1600) / 400 = A := by
  omega

set_option maxHeartbeats 4000000 in
theorem civilYMD_good (qcN c q ry rem3 N : Nat)
    (hc : c ≤ 3) (hq : q ≤ 24) (hry : ry ≤ 3) (hr3 : rem3 ≤ 365)
    (h365 : rem3 = 365 → ry = 3 ∧ (q = 24 → c = 3))
    (hN : N = 146097 * qcN + 36524 * c + 1461 * q + 365 * ry + rem3)
    (hlo : 135080 ≤ N) (hhi : N ≤ 3067976) :
    GoodDate N (civilYMD qcN c q ry rem3) := by
  rcases monScan_cases rem3 with ⟨hr, hms⟩ | ⟨hr, hr', hms⟩ | ⟨hr, hr', hms⟩ |
    ⟨hr, hr', hms⟩ | ⟨hr, hr', hms⟩ | ⟨hr, hr', hms⟩ | ⟨hr, hr', hms⟩ |
    ⟨hr, hr', hms⟩ | ⟨hr, hr', hms⟩ | ⟨hr, hr', hms⟩ | ⟨hr, hr', hms⟩ |
    ⟨hr, hms⟩
  all_goals simp only [GoodDate, civilYMD, hms]
  all_goals (first
    | rw [if_pos (by decide)]
    | rw [if_neg (by decide)])
  all_goals dsimp only
  all_goals simp only [daysFromCivil, monTable, monLen]
  all_goals (first
    | rw [q4_wrap qcN c q ry hry, q100_wrap qcN c q ry hq hry,
        q400_wrap qcN c q ry hc hq hry]
    | rw [q4_base qcN c q ry hry, q100_base qcN c q ry hq hry,
        q400_base qcN c q ry hc hq hry])
  all_goals split_ifs
  all_goals simp only [isLeapB, Bool.and_eq_true, Bool.or_eq_true,
    beq_iff_eq, bne_iff_ne, decide_eq_true_eq, ne_eq, true_and,
    and_true] at *
  all_goals (refine ⟨?_, ?_, ?_, ?_, ?_, ?_, ?_⟩ <;> omega)

theorem civilStage3_good (qcN c q rem2 N : Nat)
    (hc : c ≤ 3) (hq : q ≤ 24) (hr2 : rem2 ≤ 1460)
    (h1460 : rem2 = 1460 → q = 24 → c = 3)
    (hN : N = 146097 * qcN + 36524 * c + 1461 * q + rem2)
    (hlo : 135080 ≤ N) (hhi : N ≤ 3067976) :
    GoodDate N (civilStage3 qcN c q rem2) := by
  simp only [civilStage3]
  split_ifs with h
  · apply civilYMD_good <;> omega
  · apply civilYMD_good <;> omega

theorem civilStage2_good (qcN c rem1 N : Nat)
    (hc : c ≤ 3) (hr1 : rem1 ≤ 36524)
    (h36524 : rem1 = 36524 → c = 3)
    (hN : N = 146097 * qcN + 36524 * c + rem1)
    (hlo : 135080 ≤ N) (hhi : N ≤ 3067976) :
    GoodDate N (civilStage2 qcN c rem1) := by
  simp only [civilStage2]
  split_ifs with h
  · exact absurd h (by omega)
  · apply civilStage3_good <;> omega

theorem civilStage1_good (qcN remdays N : Nat)
    (hrd : remdays ≤ 146096)
    (hN : N = 146097 * qcN + remdays)
    (hlo : 135080 ≤ N) (hhi : N ≤ 3067976) :
    GoodDate N (civilStage1 qcN remdays) := by
  simp only [civilStage1]
  split_ifs with h
  · apply civilStage2_good <;> omega
  · apply civilStage2_good <;> omega

theorem civil_inverse (days0 : Nat) (hd : days0 ≤ 2932896) :
    ∃ y m d, civilFromDays days0 = (y, m, d) ∧
      1970 ≤ y ∧ y ≤ 9999 ∧ 1 ≤ m ∧ m ≤ 12 ∧ 1 ≤ d ∧
      d ≤ monLen (isLeapB y) m ∧ daysFromCivil y m d = days0 := by
  have hg := civilStage1_good ((days0 + 135080) / 146097)
    ((days0 + 135080) % 146097) (days0 + 135080)
    (by omega) (by omega) (by omega) (by omega)
  rcases hco : civilStage1 ((days0 + 135080) / 146097)
    ((days0 + 135080) % 146097) with ⟨y, m, d⟩
  rw [hco] at hg
  simp only [GoodDate] at hg
  refine ⟨y, m, d, ?_, hg.1, hg.2.1, hg.2.2.1, hg.2.2.2.1, hg.2.2.2.2.1,
    hg.2.2.2.2.2.1, ?_⟩
  · rw [civilFromDays]
    exact hco
  · have := hg.2.2.2.2.2.2
    omega

/-- Nine-digit zero-padded nanosecond fraction, as the formatter writes
`.000000000` and fills in the digits. -/
def pad9 (n : Nat) : List Char :=
  [digitChar (n / 100000000 % 10), digitChar (n / 10000000 % 10),
   digitChar (n / 1000000 % 10), digitChar (n / 100000 % 10),
   digitChar (n / 10000 % 10), digitChar (n / 1000 % 10),
   digitChar (n / 100 % 10), digitChar (n / 10 % 10), digitChar (n % 10)]

/-- `humantime::format_rfc3339` (the default Smart precision) on a time of
`secs` whole seconds and `nanos` sub-second nanoseconds since the Unix
epoch: `YYYY-MM-DDTHH:MM:SSZ` with a nine-digit `.nnnnnnnnn` fraction
inserted exactly when the nanosecond part is nonzero; times at or after
year 10000 (`secs ≥ 253_402_300_800`) are a formatting error.  The
two-digit fields are written digit by digit in the source
(`buf[11] = b'0' + (secs_of_day / 3600 / 10)` and so on), which is `pad2`
of the field value. -/
def fmtTimestamp (secs nanos : Nat) : Option (List Char) :=
  if 253402300800 ≤ secs then none
  else
    let ymd := civilFromDays (secs / 86400)
    let sod := secs % 86400
    some (pad2 (ymd.1 / 100) ++ pad2 (ymd.1 % 100) ++ '-' :: pad2 ymd.2.1 ++
      '-' :: pad2 ymd.2.2 ++ 'T' :: pad2 (sod / 3600) ++
      ':' :: pad2 (sod % 3600 / 60) ++ ':' :: pad2 (sod % 60) ++
      (if nanos = 0 then ['Z'] else '.' :: pad9 nanos ++ ['Z']))

/-- `two_digits` of humantime's RFC3339 parser: both bytes must be ASCII
digits. -/
def twoDigits (a b : Char) : Option Nat :=
  if a.isDigit ∧ b.isDigit then some (digitVal a * 10 + digitVal b)
  else none

/-- The fraction loop of `parse_rfc3339_weak`: after the dot, each digit
adds `mult` times its value with `mult` starting at 100 000 000 and
dividing by ten per step; a `Z` is accepted only as the final byte. -/
def fracLoop : List Char → Nat → Nat → Option Nat
  | [], _, acc => some acc
  | c :: tail, mult, acc =>
    if c = 'Z' then (if tail = [] then some acc else none)
    else if c.isDigit then
      fracLoop tail (mult / 10) (acc + mult * digitVal c)
    else none

/-- Tail handling of `parse_rfc3339_weak` after byte 18: end of input, a
lone trailing `Z`, or a dot followed by the fraction loop. -/
def parseFrac : List Char → Option Nat
  | [] => some 0
  | c :: tail =>
    if c = '.' then fracLoop tail 100000000 0
    else if c = 'Z' ∧ tail = [] then some 0
    else none

/-- `str::parse::<humantime::Timestamp>` (`humantime::parse_rfc3339`): the
strict entry checks the length, the `T` at byte 10 and the trailing `Z`,
then the weak parser reads the two-digit fields at fixed offsets, checks
the separators, the field ranges and the day against the month length
(February lengthened in leap years), folds a leap second into second 59,
computes the day count with the closed-form leap-year count
(`daysFromCivil`), and parses the optional fraction.  Returns seconds and
nanoseconds since the epoch.  All failure modes collapse to `none`. -/
def parseTimestamp (cs : List Char) : Option (Nat × Nat) :=
  if cs.length < 20 then none
  else if cs.getLast? = some 'Z' then
    match cs with
    | y1 :: y2 :: y3 :: y4 :: c1 :: mo1 :: mo2 :: c2 :: d1 :: d2 :: cT ::
        hh1 :: hh2 :: c3 :: mi1 :: mi2 :: c4 :: se1 :: se2 :: rest =>
      match twoDigits y1 y2, twoDigits y3 y4, twoDigits mo1 mo2,
          twoDigits d1 d2, twoDigits hh1 hh2, twoDigits mi1 mi2,
          twoDigits se1 se2 with
      | some yh, some yl, some month, some day, some hour, some minute,
          some second0 =>
        if c1 = '-' ∧ c2 = '-' ∧ cT = 'T' ∧ c3 = ':' ∧ c4 = ':' then
          let year := yh * 100 + yl
          if year < 1970 ∨ 23 < hour ∨ 59 < minute ∨ 60 < second0 then
            none
          else
            let second := if second0 = 60 then 59 else second0
            match monTable month with
            | none => none
            | some p =>
              if day > (if month = 2 ∧ isLeapB year = true then 29
                  else p.2) ∨ day = 0 then none
              else
                match parseFrac rest with
                | none => none
                | some nanos =>
                  some (daysFromCivil year month day * 86400 +
                    hour * 3600 + minute * 60 + second, nanos)
        else none
      | _, _, _, _, _, _, _ => none
    | _ => none
  else none

theorem digit_ne_Z : ∀ d, d < 10 → digitChar d ≠ 'Z' := by decide

theorem twoDigits_pad2 (n : Nat) (hn : n < 100) :
    twoDigits (digitChar (n / 10)) (digitChar (n % 10)) = some n := by
  rw [twoDigits,
    if_pos ⟨digit_isDigit _ (by omega), digit_isDigit _ (by omega)⟩,
    digit_val _ (by omega), digit_val _ (by omega)]
  congr 1
  omega

theorem fracLoop_pad9 (n : Nat) (hn : n < 1000000000) :
    fracLoop (pad9 n ++ ['Z']) 100000000 0 = some n := by
  have h1 : n / 100000000 % 10 < 10 := by omega
  have h2 : n / 10000000 % 10 < 10 := by omega
  have h3 : n / 1000000 % 10 < 10 := by omega
  have h4 : n / 100000 % 10 < 10 := by omega
  have h5 : n / 10000 % 10 < 10 := by omega
  have h6 : n / 1000 % 10 < 10 := by omega
  have h7 : n / 100 % 10 < 10 := by omega
  have h8 : n / 10 % 10 < 10 := by omega
  have h9 : n % 10 < 10 := by omega
  rw [pad9]
  simp only [List.cons_append, List.nil_append]
  rw [fracLoop, if_neg (digit_ne_Z _ h1), if_pos (digit_isDigit _ h1),
    digit_val _ h1]
  rw [fracLoop, if_neg (digit_ne_Z _ h2), if_pos (digit_isDigit _ h2),
    digit_val _ h2]
  rw [fracLoop, if_neg (digit_ne_Z _ h3), if_pos (digit_isDigit _ h3),
    digit_val _ h3]
  rw [fracLoop, if_neg (digit_ne_Z _ h4), if_pos (digit_isDigit _ h4),
    digit_val _ h4]
  rw [fracLoop, if_neg (digit_ne_Z _ h5), if_pos (digit_isDigit _ h5),
    digit_val _ h5]
  rw [fracLoop, if_neg (digit_ne_Z _ h6), if_pos (digit_isDigit _ h6),
    digit_val _ h6]
  rw [fracLoop, if_neg (digit_ne_Z _ h7), if_pos (digit_isDigit _ h7),
    digit_val _ h7]
  rw [fracLoop, if_neg (digit_ne_Z _ h8), if_pos (digit_isDigit _ h8),
    digit_val _ h8]
  rw [fracLoop, if_neg (digit_ne_Z _ h9), if_pos (digit_isDigit _ h9),
    digit_val _ h9]
  rw [fracLoop, if_pos rfl, if_pos rfl]
  congr 1
  omega

set_option maxHeartbeats 1000000 in
theorem parseTimestamp_fmtTimestamp (secs nanos : Nat)
    (hs : secs < 253402300800) (hn : nanos < 1000000000) :
    ∃ out, fmtTimestamp secs nanos = some out ∧
      parseTimestamp out = some (secs, nanos) := by
  obtain ⟨y, m, d, hymd, h1970, h9999, hm1, hm12, hd1, hdlen, hinv⟩ :=
    civil_inverse (secs / 86400) (by omega)
  obtain ⟨p, hp⟩ : ∃ p, monTable m = some p := by
    interval_cases m <;> exact ⟨_, rfl⟩
  simp only [monLen, hp] at hdlen
  have hple : p.2 ≤ 31 := by
    interval_cases m <;>
      (simp only [monTable, Option.some.injEq] at hp; rw [← hp]; try decide)
  have hd31 : d ≤ 31 := by
    by_cases hc2 : m = 2 ∧ isLeapB y = true
    · rw [if_pos hc2] at hdlen
      omega
    · rw [if_neg hc2] at hdlen
      omega
  have hyv : y / 100 * 100 + y % 100 = y := by omega
  have hfmt : fmtTimestamp secs nanos =
      some (pad2 (y / 100) ++ pad2 (y % 100) ++ '-' :: pad2 m ++
        '-' :: pad2 d ++ 'T' :: pad2 (secs % 86400 / 3600) ++
        ':' :: pad2 (secs % 86400 % 3600 / 60) ++
        ':' :: pad2 (secs % 86400 % 60) ++
        (if nanos = 0 then ['Z'] else '.' :: pad9 nanos ++ ['Z'])) := by
    rw [fmtTimestamp, if_neg (by omega)]
    simp only [hymd]
  refine ⟨_, hfmt, ?_⟩
  by_cases hnz : nanos = 0
  · rw [if_pos hnz]
    simp only [pad2, List.cons_append, List.nil_append]
    rw [parseTimestamp, if_neg (by simp), if_pos (by rfl)]
    dsimp only
    rw [twoDigits_pad2 (y / 100) (by omega),
      twoDigits_pad2 (y % 100) (by omega), twoDigits_pad2 m (by omega),
      twoDigits_pad2 d (by omega),
      twoDigits_pad2 (secs % 86400 / 3600) (by omega),
      twoDigits_pad2 (secs % 86400 % 3600 / 60) (by omega),
      twoDigits_pad2 (secs % 86400 % 60) (by omega)]
    dsimp only
    rw [if_pos ⟨rfl, rfl, rfl, rfl, rfl⟩, hyv]
    rw [if_neg (by omega), if_neg (by omega), hp]
    dsimp only
    rw [if_neg (by omega)]
    rw [show parseFrac ['Z'] = some 0 from rfl]
    dsimp only
    rw [hinv, hnz]
    have hb : secs / 86400 * 86400 + secs % 86400 / 3600 * 3600 +
        secs % 86400 % 3600 / 60 * 60 + secs % 86400 % 60 = secs := by
      omega
    rw [hb]
  · rw [if_neg hnz]
    simp only [pad2, pad9, List.cons_append, List.nil_append]
    rw [parseTimestamp, if_neg (by simp), if_pos (by rfl)]
    dsimp only
    rw [twoDigits_pad2 (y / 100) (by omega),
      twoDigits_pad2 (y % 100) (by omega), twoDigits_pad2 m (by omega),
      twoDigits_pad2 d (by omega),
      twoDigits_pad2 (secs % 86400 / 3600) (by omega),
      twoDigits_pad2 (secs % 86400 % 3600 / 60) (by omega),
      twoDigits_pad2 (secs % 86400 % 60) (by omega)]
    dsimp only
    rw [if_pos ⟨rfl, rfl, rfl, rfl, rfl⟩, hyv]
    rw [if_neg (by omega), if_neg (by omega), hp]
    dsimp only
    rw [if_neg (by omega)]
    rw [parseFrac, if_pos rfl]
    have hfl := fracLoop_pad9 nanos hn
    rw [pad9] at hfl
    simp only [List.cons_append, List.nil_append] at hfl
    rw [hfl]
    dsimp only
    rw [hinv]
    have hb : secs / 86400 * 86400 + secs % 86400 / 3600 * 3600 +
        secs % 86400 % 3600 / 60 * 60 + secs % 86400 % 60 = secs := by
      omega
    rw [hb]

theorem parseDuration_fmtDuration (secs nanos : Nat)
    (hn : nanos < 1000000000) :
    parseDuration (fmtDuration secs nanos) = some (secs, nanos) := by
  by_cases h0 : secs = 0 ∧ nanos = 0
  · obtain ⟨rfl, rfl⟩ := h0
    decide
  · rw [fmtDuration, if_neg h0, parseDuration]
    have hok : ∀ it ∈ durItems secs nanos, durOk it := by
      intro it hit
      simp only [durItems, List.mem_cons, List.not_mem_nil, or_false] at hit
      rcases hit with rfl | rfl | rfl | rfl | rfl | rfl | rfl | rfl | rfl <;>
        (simp only [durOk]; decide)
    have hex : ∃ it ∈ durItems secs nanos, it.v ≠ 0 := by
      by_contra hall
      push_neg at hall
      simp only [durItems, List.mem_cons, List.not_mem_nil, or_false,
        forall_eq_or_imp, forall_eq] at hall
      obtain ⟨h1, h2, h3, h4, h5, h6, h7, h8, h9⟩ := hall
      exact h0 ⟨by omega, by omega⟩
    rw [pdLoop_durJoin (durItems secs nanos) _ 0 0 hok hex (le_refl _)]
    have e1 : 0 + sumS (durItems secs nanos) +
        (0 + sumN (durItems secs nanos)) / 1000000000 = secs := by
      simp only [sumS, sumN, durItems, List.map_cons, List.map_nil,
        List.sum_cons, List.sum_nil]
      omega
    have e2 : (0 + sumN (durItems secs nanos)) % 1000000000 = nanos := by
      simp only [sumN, durItems, List.map_cons, List.map_nil, List.sum_cons,
        List.sum_nil]
      omega
    rw [e1, e2]

end Wallpaper
